import Mathlib

/-!
# libretroshare: friend-server request loop and Tor manager

A shallow embedding of `src/friend_server/fsmanager.cc`, `src/tor/TorManager.cpp`
and `src/friend_server/socketbio.cc`, followed by the properties established
about them.

Conventions of the embedding:
* member variables keep their C++ names;
* `rstime_t` (signed 64 bit) is `Int`, sizes and `uint32_t` counters are `Nat`
  (no arithmetic in the modelled code can wrap for the guarded inputs);
* the collaborators that live outside these files (`rsPeers`, `FsClient`,
  `RsDirUtil`, `TorProcess`, `TorControl`, `rsEvents`, the socket) appear as
  explicit inputs (`Env`, `World`, the outcome of `recv` and `write`) or as logs
  of the calls made to them.
-/

/-! ## Part I. `fsmanager.cc` -/

namespace FriendServerManager

/-- Line 7 of `fsmanager.cc`. -/
def MIN_DELAY_BETWEEN_FS_REQUESTS : Int := 30
/-- Line 8 of `fsmanager.cc`. -/
def MAX_DELAY_BETWEEN_FS_REQUESTS : Int := 3600
/-- Line 9 of `fsmanager.cc`. -/
def DEFAULT_FRIENDS_TO_REQUEST : Nat := 10
/-- Line 11 of `fsmanager.cc`. -/
def DEFAULT_PROXY_ADDRESS : String := "127.0.0.1"
/-- Line 12 of `fsmanager.cc`. -/
def DEFAULT_FRIEND_SERVER_PORT : Nat := 2017
/-- Line 13 of `fsmanager.cc`. -/
def DEFAULT_PROXY_PORT : Nat := 9050

/-- An SSL location identifier (`RsPeerId`). -/
abbrev RsPeerId := String
/-- A PGP identifier (`RsPgpId`). -/
abbrev RsPgpId := String

/-- The fields of `RsPeerDetails` that `threadTick` reads. -/
structure RsPeerDetails where
  id : RsPeerId
  gpg_id : RsPgpId
  dyndns : String
deriving DecidableEq, Repr

/-- The member variables of `FriendServerManager`. -/
structure State where
  mServerAddress : String
  mServerPort : Nat
  mProxyAddress : String
  mProxyPort : Nat
  mFriendsToRequest : Nat
  mLastFriendReqestCampain : Int
  mCachedPGPPassphrase : String
deriving DecidableEq, Repr

/-- The arguments of one call of `FsClient().requestFriends`. -/
structure Request where
  address : String
  port : Nat
  proxyAddress : String
  proxyPort : Nat
  count : Nat
  passphrase : String
deriving DecidableEq, Repr

/-- What one tick reads from its collaborators: the PGP friend list and the
friend-location list of `rsPeers`, its short-invite parser (`none` when
`parseShortInvite` returns false), the clock `time(nullptr)`, and the map filled
by the blocking `requestFriends` call, listed in iteration order. -/
structure Env where
  getPgpFriendList : List RsPgpId
  getFriendList : List RsPeerId
  parseShortInvite : String → Option RsPeerDetails
  now : Int
  requestFriends : Request → List (String × Bool)

/-- What one tick does to its collaborators: the calls of `requestFriends` and
the calls of `rsPeers->addSslOnlyFriend`, each in call order. -/
structure Effects where
  requests : List Request
  added : List (RsPeerId × RsPgpId × RsPeerDetails)
deriving DecidableEq, Repr

/-- The constructor `FriendServerManager::FriendServerManager` (lines 15-23);
the strings are default-constructed. -/
def init : State :=
  { mServerAddress := ""
    mServerPort := DEFAULT_FRIEND_SERVER_PORT
    mProxyAddress := DEFAULT_PROXY_ADDRESS
    mProxyPort := DEFAULT_PROXY_PORT
    mFriendsToRequest := DEFAULT_FRIENDS_TO_REQUEST
    mLastFriendReqestCampain := 0
    mCachedPGPPassphrase := "" }

/-- Source function `setServerAddress` (lines 46-50). -/
def setServerAddress (st : State) (addr : String) (port : Nat) : State :=
  { st with mServerAddress := addr, mServerPort := port }

/-- Source function `setFriendsToRequest` (lines 56-59). -/
def setFriendsToRequest (st : State) (n : Nat) : State :=
  { st with mFriendsToRequest := n }

/-- Line 99 evaluated in exact arithmetic: the value of `s` as a real number;
`f` is `friends.size()` and `W` is `mFriendsToRequest`. The subtraction is only
evaluated when `f < W`. The program computes `s` in doubles, see
`smoothingWith`. -/
noncomputable def smoothing (f W : Nat) : ℝ :=
  if f < W then (((W - f : Nat) : ℝ) / (W : ℝ)) else 1.0

/-- Line 100 evaluated in exact arithmetic: `delay_for_request` with `exp`,
`log` and `floor` over the reals. This is the idealised formula, not the value
the program stores: the program evaluates the same expression in doubles
(`delayWith`), and the two can differ by one second where the exact value of
the exponential lies within rounding distance of an integer. -/
noncomputable def delay_for_request (f W : Nat) : Int :=
  MIN_DELAY_BETWEEN_FS_REQUESTS
    + ⌊Real.exp (-1 * smoothing f W
        + Real.log ((MAX_DELAY_BETWEEN_FS_REQUESTS : Int) : ℝ) * (1.0 - smoothing f W))⌋

/-- The loop of lines 122-142 over the returned invites: the
`addSslOnlyFriend` calls it makes, in order. `lst` is the friend-location list
read once before the loop (lines 118-120). -/
def addNewFriends (parse : String → Option RsPeerDetails) (lst : List RsPeerId) :
    List (String × Bool) → List (RsPeerId × RsPgpId × RsPeerDetails)
  | [] => []
  | invite :: rest =>
    match parse invite.1 with
    | none => addNewFriends parse lst rest
    | some det =>
      if det.id ∈ lst then addNewFriends parse lst rest
      else (det.id, det.gpg_id, det) :: addNewFriends parse lst rest

/-- The body of the `if` of lines 106-143: one request campaign. -/
def campaign (env : Env) (st : State) : State × Effects :=
  let st1 := { st with mLastFriendReqestCampain := env.now }
  let req : Request :=
    { address := st1.mServerAddress, port := st1.mServerPort
      proxyAddress := st1.mProxyAddress, proxyPort := st1.mProxyPort
      count := st1.mFriendsToRequest, passphrase := st1.mCachedPGPPassphrase }
  let friend_certificates := env.requestFriends req
  (st1, { requests := [req]
          added := addNewFriends env.parseShortInvite env.getFriendList friend_certificates })

/-- Source function `threadTick` (lines 61-144) with the delay computation of lines 99-100
passed in as `delay`, so that the control flow can be evaluated. -/
def threadTickWith (delay : Nat → Nat → Int) (env : Env) (st : State) : State × Effects :=
  if st.mServerAddress = "" then (st, { requests := [], added := [] })
  else
    let friends := env.getPgpFriendList
    if st.mFriendsToRequest = 0 ∨ st.mFriendsToRequest < friends.length then
      (st, { requests := [], added := [] })
    else
      let d := delay friends.length st.mFriendsToRequest
      if st.mLastFriendReqestCampain + d < env.now then campaign env st
      else (st, { requests := [], added := [] })

/-- Source function `FriendServerManager::threadTick` (lines 61-144) with the delay of
lines 99-100 evaluated in exact arithmetic. With the delay the program
computes in doubles the tick is `threadTickWith (delayWith A)`, for the
arithmetic `A` of the platform. -/
noncomputable def threadTick (env : Env) (st : State) : State × Effects :=
  threadTickWith delay_for_request env st

/-- The floating-point operations of lines 99-100, as inputs. A double is
represented by the real number it denotes. `round` sends the exact result of
`/`, `*`, `-` or `+` on doubles to the double that the operation returns;
`exp` and `log` are the library functions on doubles. -/
structure DoubleArithmetic where
  round : ℝ → ℝ
  exp : ℝ → ℝ
  log : ℝ → ℝ

/-- Exact arithmetic: nothing is rounded, `exp` and `log` are the real
functions. -/
noncomputable def exactArithmetic : DoubleArithmetic :=
  { round := fun x => x, exp := Real.exp, log := Real.log }

/-- Line 99 as the program evaluates it: the `double s`. The integers
`mFriendsToRequest - friends.size()` and `mFriendsToRequest` are below `2^32`
and convert to doubles exactly; the quotient is rounded. -/
noncomputable def smoothingWith (A : DoubleArithmetic) (f W : Nat) : ℝ :=
  if f < W then A.round (((W - f : Nat) : ℝ) / (W : ℝ)) else 1.0

/-- The double that `exp(-1*s + log(MAX_DELAY_BETWEEN_FS_REQUESTS)*(1.0-s))`
returns on line 100, operation by operation. -/
noncomputable def expValueWith (A : DoubleArithmetic) (f W : Nat) : ℝ :=
  A.exp (A.round (A.round (-1 * smoothingWith A f W)
    + A.round (A.log ((MAX_DELAY_BETWEEN_FS_REQUESTS : Int) : ℝ)
        * A.round (1.0 - smoothingWith A f W))))

/-- Line 100 as the program evaluates it: `delay_for_request`; `floor` and the
conversion to `int` are exact on a double below `2^31`. -/
noncomputable def delayWith (A : DoubleArithmetic) (f W : Nat) : Int :=
  MIN_DELAY_BETWEEN_FS_REQUESTS + ⌊expValueWith A f W⌋

/-- The double returned by `exp(...)` on line 100 is within `10^-6` of the
exact value of that expression, for every wanted count that fits `uint32_t`.
(With a relative error of about `10^-16` per operation and values below 3600,
doubles stay within about `10^-10`.) -/
def DoubleArithmetic.IsAccurate (A : DoubleArithmetic) : Prop :=
  ∀ f W : Nat, W < 2 ^ 32 →
    |expValueWith A f W - expValueWith exactArithmetic f W| ≤ 1 / 10 ^ 6

/-- The operands with which one tick evaluates, on line 99, the unsigned
subtraction `mFriendsToRequest - friends.size()` and the division by
`mFriendsToRequest`: `some (W, f)`, or `none` when the tick returns before
line 99 (lines 66-70, 78-82) or takes the other arm of the conditional. -/
def delayLineOperands (env : Env) (st : State) : Option (Nat × Nat) :=
  if st.mServerAddress = "" then none
  else
    let friends := env.getPgpFriendList
    if st.mFriendsToRequest = 0 ∨ st.mFriendsToRequest < friends.length then none
    else if friends.length < st.mFriendsToRequest then
      some (st.mFriendsToRequest, friends.length)
    else none

/-- A short-invite parser for the concrete scenarios: the invite `"bad"` does
not parse, every other invite parses to the location named by the invite. -/
def sampleParse (invite : String) : Option RsPeerDetails :=
  if invite = "bad" then none
  else some { id := invite, gpg_id := "pgp-" ++ invite, dyndns := "" }

/-- A concrete environment with `f` PGP friends, the single known location
`"known"`, the clock at `now`, and a friend server that answers with three
invites. -/
def sampleEnv (f : Nat) (now : Int) : Env :=
  { getPgpFriendList := List.replicate f "pgp"
    getFriendList := ["known"]
    parseShortInvite := sampleParse
    now := now
    requestFriends := fun _ => [("bad", true), ("known", true), ("new", false)] }

/-- A freshly constructed manager whose server address has been set, with the
last campaign at time `last` and `W` friends wanted. -/
def sampleState (W : Nat) (last : Int) : State :=
  { setFriendsToRequest (setServerAddress init "fs.onion" 2017) W with
    mLastFriendReqestCampain := last }

end FriendServerManager

/-! ## Part II. `TorManager.cpp` -/

namespace Tor

/-- The two codes of `RsTorManagerEventCode` that `TorManager.cpp` sends. -/
inductive RsTorManagerEventCode where
  | CONFIGURATION_NEEDED
  | TOR_MANAGER_ERROR
deriving DecidableEq, Repr

/-- The fields of `RsTorManagerEvent` that `TorManager.cpp` fills. -/
structure RsTorManagerEvent where
  mTorManagerEventType : RsTorManagerEventCode
  mErrorMessage : String := ""
deriving DecidableEq, Repr

/-- The values of `TorControl::Status` (named in `RsTor::torConnectivityStatus`,
lines 636-649). -/
inductive Status where
  | Error
  | NotConnected
  | Connecting
  | Authenticating
  | Connected
deriving DecidableEq, Repr

/-- Modelled from the spec: `CryptoKey` is not among the sources; a key is its
canonical serialization `bytes()`, "used on disk". A default-constructed key
(`CryptoKey key;`, line 176) has no bytes. -/
structure CryptoKey where
  bytes : String := ""
deriving DecidableEq, Repr

/-- One target of a hidden service, with the three fields read on lines
425-427. -/
structure Target where
  servicePort : Nat
  targetAddress : String
  targetPort : Nat
deriving DecidableEq, Repr

/-- Modelled from the spec: `HiddenService` is not among the sources; it holds
its directory, its key and the sequence `targets[]`. -/
structure HiddenService where
  dataPath : String
  privateKey : CryptoKey := {}
  targets : List Target := []
deriving DecidableEq, Repr

/-- What the manager asks of its `TorControl`, as a log entry;
`addHiddenService` records the service as it is when handed over. -/
inductive ControlCall where
  | getConfiguration (key : String)
  | takeOwnership
  | addHiddenService (service : HiddenService)
deriving DecidableEq, Repr

/-- The `TorControl` owned by the manager, seen through the calls made to it. -/
structure TorControl where
  calls : List ControlCall := []
deriving DecidableEq, Repr

/-- The `TorProcess` owned by the manager: the three settings passed to it on
lines 393-395 and the number of times `TorProcess::start` was called. -/
structure TorProcess where
  executable : String := ""
  dataDir : String := ""
  defaultTorrc : String := ""
  startCalls : Nat := 0
deriving DecidableEq, Repr

/-- A `TorControlCommand*` as `getConfFinished` sees it: either a
`GetConfCommand`, with what its `get(key)` returns, or any other command
(the `dynamic_cast` of line 478 yields null). -/
inductive TorControlCommand where
  | GetConfCommand (get : String → List String)
  | other

/-- The member variables of `TorManagerPrivate` (lines 59-88) used below;
`process` and `hiddenService` are `none` for the null pointer. -/
structure TorManagerPrivate where
  process : Option TorProcess := none
  control : TorControl := {}
  dataDir : String := ""
  hiddenServiceDir : String := ""
  logMessages : List String := []
  errorMessage : String := ""
  configNeeded : Bool := false
  hiddenService : Option HiddenService := none
deriving DecidableEq, Repr

/-- The file system as the manager observes and changes it: the content of the
regular file at each path (`none` when there is none), whether
`RsDirUtil::checkCreateDirectory` succeeds on a path, whether a file can be
opened for writing there (`fopen(path, "w")`, `std::ofstream`), and what
`CryptoKey::loadFromFile` yields on a path (`none` when it returns false). -/
structure FileSystem where
  files : String → Option String
  checkCreateDirectory : String → Bool
  canOpenForWriting : String → Bool
  loadFromFile : String → Option CryptoKey := fun _ => none

/-- What does not change while the manager runs: whether the global `rsEvents`
is non-null, `RsInit::executablePath()`, `RsDirUtil::getDirectory`,
`RsUtil::StringToInt` (`none` when it returns false), and the three
compile-time switches of `torExecutablePath`. -/
structure World where
  rsEvents : Bool
  executablePath : String
  getDirectory : String → String
  StringToInt : String → Option Int
  Q_OS_WIN : Bool := false
  BUNDLED_TOR_PATH : Option String := none
  APPLE : Bool := false

/-- The manager together with the file system and the events passed to
`rsEvents->sendEvent`, oldest first. -/
structure System where
  d : TorManagerPrivate
  fs : FileSystem
  events : List RsTorManagerEvent := []

/-- Modelled from the spec: `RsDirUtil::makePath` is not among the sources; the
spec writes the paths built with it as `<dataDir>/torrc`,
`<dataDir>/default_torrc`: the two parts joined by one `/` unless the first is
empty or already ends in one. -/
def makePath (path1 path2 : String) : String :=
  if path1 ≠ "" ∧ path1.back ≠ '/' then path1 ++ "/" ++ path2 else path1 ++ path2

/-- Modelled from the spec: `RsDirUtil::fileExists` is not among the sources;
a file exists when the file system has one at the path. -/
def fileExists (fs : FileSystem) (path : String) : Bool :=
  (fs.files path).isSome

/-- Modelled from the spec: `RsDirUtil::checkFile` is not among the sources;
it reports whether a regular file is at the path and, if so, its size
(`some file_size`). -/
def checkFile (fs : FileSystem) (path : String) : Option Nat :=
  (fs.files path).map String.utf8ByteSize

/-- The constructor `TorManagerPrivate::TorManagerPrivate` (lines 97-106). -/
def TorManagerPrivate.init : TorManagerPrivate :=
  { process := none, control := {}, configNeeded := false, hiddenService := none }

/-- Source function `TorManager::setTorDataDirectory` (lines 131-137). -/
def setTorDataDirectory (sys : System) (path : String) : System :=
  let dataDir := if path ≠ "" ∧ path.back ≠ '/' then path ++ "/" else path
  { sys with d := { sys.d with dataDir := dataDir } }

/-- The block `if(rsEvents) { ...; rsEvents->sendEvent(ev); }` of lines
379-384, 490-495 and 572-579. -/
def sendEvent (w : World) (sys : System) (ev : RsTorManagerEvent) : System :=
  if w.rsEvents then { sys with events := sys.events ++ [ev] } else sys

/-- Source function `TorManager::configurationNeeded` (lines 272-275). -/
def configurationNeeded (sys : System) : Bool := sys.d.configNeeded

/-- Source function `TorManager::logMessages` (lines 277-280). -/
def logMessages (sys : System) : List String := sys.d.logMessages

/-- Source function `TorManager::hasError` (lines 282-285). -/
def hasError (sys : System) : Bool := sys.d.errorMessage != ""

/-- Source function `TorManager::errorMessage` (lines 287-290). -/
def errorMessage (sys : System) : String := sys.d.errorMessage

/-- Source function `TorManagerPrivate::setError` (lines 568-581). -/
def setError (w : World) (sys : System) (message : String) : System :=
  sendEvent w { sys with d := { sys.d with errorMessage := message } }
    { mTorManagerEventType := .TOR_MANAGER_ERROR, mErrorMessage := message }

/-- Source function `TorManagerPrivate::processErrorChanged` (lines 446-450). -/
def processErrorChanged (w : World) (sys : System) (errorMessage : String) : System :=
  setError w sys errorMessage

/-- Source function `TorManagerPrivate::processLogMessage` (lines 452-458). -/
def processLogMessage (sys : System) (message : String) : System :=
  let logMessages :=
    if sys.d.logMessages.length ≥ 50 then sys.d.logMessages.tail else sys.d.logMessages
  { sys with d := { sys.d with logMessages := logMessages ++ [message] } }

/-- The `filename` of `torExecutablePath` (lines 510-514). -/
def torFilename (w : World) : String :=
  if w.Q_OS_WIN then "/tor/tor.exe" else "/tor"

/-- The paths that `torExecutablePath` probes with `fileExists`, in order
(lines 516-538). -/
def torSearchLocations (w : World) : List String :=
  [makePath (w.getDirectory w.executablePath) (torFilename w)]
    ++ (match w.BUNDLED_TOR_PATH with
        | some path => [makePath path (torFilename w)]
        | none => [])
    ++ (if w.APPLE then [makePath "/usr/local/opt/tor/bin" (torFilename w)] else [])

/-- Source function `TorManagerPrivate::torExecutablePath` (lines 499-542). -/
def torExecutablePath (w : World) (fs : FileSystem) : String :=
  let filename := torFilename w
  let tor_exe_path := makePath (w.getDirectory w.executablePath) filename
  if fileExists fs tor_exe_path then tor_exe_path
  else
    let bundled : Option String :=
      match w.BUNDLED_TOR_PATH with
      | some path =>
        if fileExists fs (makePath path filename) then some (makePath path filename) else none
      | none => none
    match bundled with
    | some found => found
    | none =>
      if w.APPLE && fileExists fs (makePath "/usr/local/opt/tor/bin" filename) then
        makePath "/usr/local/opt/tor/bin" filename
      else filename.drop 1

/-- Source function `RsTor::isTorAvailable` (lines 583-586). -/
def isTorAvailable (w : World) (sys : System) : Bool :=
  torExecutablePath w sys.fs != ""

/-- The text written by `createDefaultTorrc` (lines 551-555). -/
def defaultTorrcContent : String :=
  "SocksPort auto\nAvoidDiskWrites 1\n__ReloadTorrcOnSIGHUP 0\n"

/-- Source function `TorManagerPrivate::createDefaultTorrc` (lines 549-566): the returned flag
and the file system afterwards. -/
def createDefaultTorrc (fs : FileSystem) (path : String) : Bool × FileSystem :=
  if !fs.canOpenForWriting path then (false, fs)
  else
    (true, { fs with files := fun p => if p = path then some defaultTorrcContent else fs.files p })

/-- Source function `TorManager::start` (lines 292-399): the returned flag and the system
afterwards. -/
def start (w : World) (sys : System) : Bool × System :=
  let sys := if sys.d.errorMessage ≠ "" then { sys with d := { sys.d with errorMessage := "" } }
             else sys
  let executable := torExecutablePath w sys.fs
  if executable = "" then (false, setError w sys "Cannot find tor executable")
  else
    let sys := match sys.d.process with
      | none => { sys with d := { sys.d with process := some {} } }
      | some _ => sys
    if !sys.fs.checkCreateDirectory sys.d.dataDir then
      (false, setError w sys ("Cannot write data location: " ++ sys.d.dataDir))
    else
      let defaultTorrc := makePath sys.d.dataDir "default_torrc"
      let created : Bool × FileSystem :=
        if fileExists sys.fs defaultTorrc then (true, sys.fs)
        else createDefaultTorrc sys.fs defaultTorrc
      let sys := { sys with fs := created.2 }
      if !created.1 then
        (false, setError w sys ("Cannot write data files: " ++ defaultTorrc))
      else
        let torrc := makePath sys.d.dataDir "torrc"
        let torrc_exists := (checkFile sys.fs torrc).isSome
        let sys :=
          if !torrc_exists || torrc.length == 0 then
            sendEvent w { sys with d := { sys.d with configNeeded := true } }
              { mTorManagerEventType := .CONFIGURATION_NEEDED }
          else sys
        let process := sys.d.process.map (fun p =>
          { p with executable := executable, dataDir := sys.d.dataDir
                   defaultTorrc := defaultTorrc, startCalls := p.startCalls + 1 })
        (true, { sys with d := { sys.d with process := process } })

/-- Source function `TorManagerPrivate::controlStatusChanged` (lines 460-474). -/
def controlStatusChanged (sys : System) (status : Status) : System :=
  if status = Status.Connected then
    let sys :=
      if !sys.d.configNeeded then
        { sys with d := { sys.d with control :=
            { calls := sys.d.control.calls ++ [ControlCall.getConfiguration "DisableNetwork"] } } }
      else sys
    if sys.d.process.isSome then
      { sys with d := { sys.d with control :=
          { calls := sys.d.control.calls ++ [ControlCall.takeOwnership] } } }
    else sys
  else sys

/-- One iteration of the loop of lines 484-496 of `getConfFinished`. -/
def getConfFinishedStep (w : World) (sys : System) (str : String) : System :=
  match w.StringToInt str with
  | some n =>
    if n = 1 ∧ sys.d.configNeeded = false then
      sendEvent w { sys with d := { sys.d with configNeeded := true } }
        { mTorManagerEventType := .CONFIGURATION_NEEDED }
    else sys
  | none => sys

/-- Source function `TorManagerPrivate::getConfFinished` (lines 476-497). -/
def getConfFinished (w : World) (sys : System) (sender : TorControlCommand) : System :=
  match sender with
  | .other => sys
  | .GetConfCommand get => (get "DisableNetwork").foldl (getConfFinishedStep w) sys

/-- The number of `CONFIGURATION_NEEDED` events in an event log. -/
def countConfigurationNeeded (events : List RsTorManagerEvent) : Nat :=
  (events.filter (fun ev => ev.mTorManagerEventType = .CONFIGURATION_NEEDED)).length

/-- The number of times the child process has been started. -/
def childStarts (sys : System) : Nat :=
  match sys.d.process with
  | some p => p.startCalls
  | none => 0

/-- Source function `TorManager::setHiddenServiceDirectory` (lines 143-149). -/
def setHiddenServiceDirectory (sys : System) (path : String) : System :=
  let hiddenServiceDir := if path ≠ "" ∧ ¬ (path.back = '/') then path ++ "/" else path
  { sys with d := { sys.d with hiddenServiceDir := hiddenServiceDir } }

/-- Modelled from the spec: the constructor `HiddenService(client, key, path)`
of line 183 is not among the sources; the service is created holding the given
key, with no target yet. -/
def HiddenService.withKey (key : CryptoKey) (path : String) : HiddenService :=
  { dataPath := path, privateKey := key, targets := [] }

/-- Modelled from the spec: the constructor `HiddenService(client, path)` of
line 190 is not among the sources; the service is created with no key ("if no
key present, issue `ADD_ONION NEW:BEST`") and no target yet. -/
def HiddenService.create (path : String) : HiddenService :=
  { dataPath := path, privateKey := {}, targets := [] }

/-- Modelled from the spec: `HiddenService::addTarget` is not among the
sources; it adds one entry at the end of the sequence `targets[]`. -/
def HiddenService.addTarget (service : HiddenService) (servicePort : Nat)
    (targetAddress : String) (targetPort : Nat) : HiddenService :=
  { service with targets := service.targets ++
      [{ servicePort := servicePort, targetAddress := targetAddress, targetPort := targetPort }] }

/-- Source function `TorManager::setupHiddenService` (lines 151-224): the returned flag and
the system afterwards. -/
def setupHiddenService (sys : System) : Bool × System :=
  match sys.d.hiddenService with
  | some _ => (true, sys)
  | none =>
    let legacyDir := sys.d.hiddenServiceDir
    if legacyDir = "" then (false, sys)
    else
      let created : Option HiddenService :=
        if legacyDir ≠ "" ∧ fileExists sys.fs (makePath legacyDir "/private_key") = true then
          match sys.fs.loadFromFile (makePath legacyDir "/private_key") with
          | none => none
          | some key => some (HiddenService.withKey key legacyDir)
        else some (HiddenService.create legacyDir)
      match created with
      | none => (false, sys)
      | some service =>
        let service := service.addTarget 9878 "127.0.0.1" 7934
        (true, { sys with d := { sys.d with
                  hiddenService := some service
                  control := { calls := sys.d.control.calls
                                ++ [ControlCall.addHiddenService service] } } })

/-- The file system after each of the two statements of
`hiddenServicePrivateKeyChanged` that act on it: `std::ofstream s(path)`
(line 238), which creates or truncates the file, and `s << key` (line 248).
When the file cannot be opened the stream is in a failed state and both leave
the file system as it is; without a hidden service (line 233) neither runs. -/
def hiddenServicePrivateKeyChangedTrace (sys : System) : List FileSystem :=
  match sys.d.hiddenService with
  | none => []
  | some service =>
    let key := service.privateKey.bytes
    let path := sys.d.hiddenServiceDir ++ "/private_key"
    if sys.fs.canOpenForWriting path then
      let opened : FileSystem :=
        { sys.fs with files := fun p => if p = path then some "" else sys.fs.files p }
      let written : FileSystem :=
        { opened with files := fun p =>
            if p = path then (opened.files p).map (fun old => old ++ key) else opened.files p }
      [opened, written]
    else [sys.fs, sys.fs]

/-- Source function `TorManager::hiddenServicePrivateKeyChanged` (lines 231-254): the
system once the stream is closed. -/
def hiddenServicePrivateKeyChanged (sys : System) : System :=
  { sys with fs := (hiddenServicePrivateKeyChangedTrace sys).getLast?.getD sys.fs }

/-- The hidden services handed to the control so far, oldest first. -/
def addedHiddenServices (sys : System) : List HiddenService :=
  sys.d.control.calls.filterMap (fun c =>
    match c with
    | ControlCall.addHiddenService service => some service
    | _ => none)

/-- Calling `setupHiddenService` `n` times in a row (the returned flags are
dropped). -/
def setupHiddenServiceTimes : Nat → System → System
  | 0, sys => sys
  | n + 1, sys => setupHiddenServiceTimes n (setupHiddenService sys).2

/-- A file system for the concrete scenarios, holding the files listed in
`present`; `writable` says whether directories can be created and files opened
for writing. -/
def sampleFs (present : List (String × String)) (writable : Bool) : FileSystem :=
  { files := fun p => (present.find? (fun e => e.1 = p)).map (fun e => e.2)
    checkCreateDirectory := fun _ => writable
    canOpenForWriting := fun _ => writable }

/-- A world for the concrete scenarios: the program is `/usr/bin/retroshare`,
and only the decimal strings `"0"` and `"1"` are parsed as integers. -/
def sampleWorld (rsEvents : Bool) : World :=
  { rsEvents := rsEvents
    executablePath := "/usr/bin/retroshare"
    getDirectory := fun _ => "/usr/bin"
    StringToInt := fun s => if s = "1" then some 1 else if s = "0" then some 0 else none }

/-- A freshly constructed manager with its data directory set to `/data/tor`,
over the given file system. -/
def sampleSystem (fs : FileSystem) : System :=
  setTorDataDirectory { d := TorManagerPrivate.init, fs := fs } "/data/tor"

/-- A manager as `sampleSystem`, with its hidden-service directory set to
`/data/hs`; the file system holds the files in `present`, everything is
writable, and `CryptoKey::loadFromFile` accepts exactly the files whose content
starts with `ED25519-V3:`. -/
def sampleHsSystem (present : List (String × String)) : System :=
  setHiddenServiceDirectory
    (sampleSystem { sampleFs present true with
      loadFromFile := fun p =>
        match (present.find? (fun e => e.1 = p)).map (fun e => e.2) with
        | some content =>
          if "ED25519-V3:".data.isPrefixOf content.data then some { bytes := content }
          else none
        | none => none })
    "/data/hs"

/-- A manager as `sampleHsSystem` whose hidden service already exists and holds
a key with the canonical bytes `keyBytes`. -/
def sampleKeyedSystem (present : List (String × String)) (keyBytes : String) : System :=
  { sampleHsSystem present with
    d := { (sampleHsSystem present).d with
      hiddenService := some ((HiddenService.withKey { bytes := keyBytes } "/data/hs/").addTarget
        9878 "127.0.0.1" 7934) } }

/-- Fifty-two distinct log lines: `"l"`, `"lx"`, `"lxx"`, ... -/
def sampleLines : List String :=
  (List.range 52).map (fun n => "l".pushn (Char.ofNat 120) n)

end Tor

/-! ## Part III. `socketbio.cc` -/

namespace FsBioInterface

/-- One byte of a buffer. -/
abbrev Byte := UInt8

/-- The member variables of `FsBioInterface`. A buffer entry
`std::pair<void*, int>` (an allocated block and its size) is the list of the
bytes of the block. The four byte counters are declared in `fsbio.h`, which is
not among the sources; they are integers here, and none of the modelled
operations can take them below zero from a state built by these operations with
non-negative lengths. -/
structure State where
  mCLintConnt : Int
  mIsActive : Bool
  mTotalReadBytes : Int
  mTotalInBufferBytes : Int
  mTotalWrittenBytes : Int
  mTotalOutBufferBytes : Int
  in_buffer : List (List Byte)
  out_buffer : List (List Byte)
deriving DecidableEq, Repr

/-- The constructor `FsBioInterface::FsBioInterface` (lines 26-33). -/
def init (socket : Int) : State :=
  { mCLintConnt := socket
    mIsActive := socket != 0
    mTotalReadBytes := 0
    mTotalInBufferBytes := 0
    mTotalWrittenBytes := 0
    mTotalOutBufferBytes := 0
    in_buffer := []
    out_buffer := [] }

/-- Source function `FsBioInterface::clean` (lines 168-175). -/
def clean (st : State) : State :=
  { st with in_buffer := [], out_buffer := [] }

/-- Source function `FsBioInterface::close` (lines 262-270); it returns 1. -/
def close (st : State) : State :=
  clean { st with mIsActive := false, mCLintConnt := 0 }

/-- Source function `FsBioInterface::setSocket` (lines 35-44). -/
def setSocket (st : State) (s : Int) : State :=
  let st := if st.mIsActive then close st else st
  { st with mCLintConnt := s, mIsActive := s != 0 }

/-- Source function `FsBioInterface::read_pending` (lines 62-108): the state afterwards and
the returned value. The outcome of `recv` is `none` when it returns a negative
value and `some bytes` when it returns `bytes.length` and stores `bytes`. -/
def read_pending (st : State) (recv : Option (List Byte)) : State × Int :=
  match recv with
  | none => (st, st.mTotalInBufferBytes)
  | some bytes =>
    let readbytes : Int := bytes.length
    if readbytes = 0 then
      let st := close st
      (st, st.mTotalInBufferBytes)
    else
      let st := { st with
        in_buffer := st.in_buffer ++ [bytes]
        mTotalInBufferBytes := st.mTotalInBufferBytes + readbytes
        mTotalReadBytes := st.mTotalReadBytes + readbytes }
      (st, st.mTotalInBufferBytes)

/-- Source function `FsBioInterface::write_pending` (lines 110-161): the state afterwards and
the returned value; `written` is what `write` returns for the front block (it
is not called when `out_buffer` is empty). -/
def write_pending (st : State) (written : Int) : State × Int :=
  match st.out_buffer with
  | [] => (st, st.mTotalOutBufferBytes)
  | p :: rest =>
    if written < 0 then (st, st.mTotalOutBufferBytes)
    else if written = 0 then (st, st.mTotalOutBufferBytes)
    else
      let out_buffer :=
        if written < (p.length : Int) then p.drop written.toNat :: rest else rest
      let st := { st with
        out_buffer := out_buffer
        mTotalOutBufferBytes := st.mTotalOutBufferBytes - written
        mTotalWrittenBytes := st.mTotalWrittenBytes + written }
      (st, st.mTotalOutBufferBytes)

/-- The effect of `memcpy(&data[offset], src, n)` on the caller's buffer
`data`, seen as a function from positions to bytes. -/
def memcpy (data : Nat → Byte) (offset : Nat) (src : List Byte) (n : Nat) : Nat → Byte :=
  fun i => if offset ≤ i ∧ i < offset + n then src.getD (i - offset) 0 else data i

/-- What `readdata` hands back: the returned value, the caller's buffer, and
the two members it changes. -/
structure ReadResult where
  ret : Int
  data : Nat → Byte
  in_buffer : List (List Byte)
  mTotalInBufferBytes : Int

/-- The `while` loop of `readdata` (lines 182-217), entered with the local
`total_len`; each iteration either returns or removes the front block. -/
def readdataLoop (len : Int) :
    List (List Byte) → Int → (Nat → Byte) → Int → ReadResult
  | [], total_len, data, mTotalInBufferBytes =>
    if total_len < len then
      { ret := total_len, data := data, in_buffer := []
        mTotalInBufferBytes := mTotalInBufferBytes - total_len }
    else
      { ret := len, data := data, in_buffer := []
        mTotalInBufferBytes := mTotalInBufferBytes - len }
  | front :: rest, total_len, data, mTotalInBufferBytes =>
    if total_len < len then
      if total_len + (front.length : Int) > len then
        { ret := len
          data := memcpy data total_len.toNat front (len - total_len).toNat
          in_buffer := front.drop (len - total_len).toNat :: rest
          mTotalInBufferBytes := mTotalInBufferBytes - len }
      else
        readdataLoop len rest (total_len + (front.length : Int))
          (memcpy data total_len.toNat front front.length) mTotalInBufferBytes
    else
      { ret := len, data := data, in_buffer := front :: rest
        mTotalInBufferBytes := mTotalInBufferBytes - len }

/-- Source function `FsBioInterface::readdata` (lines 176-218): the state afterwards, the
caller's buffer afterwards, and the returned value. -/
def readdata (st : State) (data : Nat → Byte) (len : Int) : State × (Nat → Byte) × Int :=
  let r := readdataLoop len st.in_buffer 0 data st.mTotalInBufferBytes
  ({ st with in_buffer := r.in_buffer, mTotalInBufferBytes := r.mTotalInBufferBytes },
    r.data, r.ret)

/-- Source function `FsBioInterface::senddata` (lines 220-242) called with the `len` bytes
`data` (`len = data.length`): the state afterwards and the returned value. The
allocation is taken to succeed. -/
def senddata (st : State) (data : List Byte) : State × Int :=
  let len : Int := data.length
  if len = 0 then (st, 0)
  else
    ({ st with
        out_buffer := st.out_buffer ++ [data]
        mTotalOutBufferBytes := st.mTotalOutBufferBytes + len }, len)

/-- Source function `FsBioInterface::moretoread` (lines 253-256). -/
def moretoread (st : State) : Bool :=
  st.mTotalInBufferBytes > 0

/-- Source function `FsBioInterface::isactive` (lines 248-251). -/
def isactive (st : State) : Bool := st.mIsActive

/-- The operations on an `FsBioInterface`, with their inputs. -/
inductive Op where
  | read_pending (recv : Option (List Byte))
  | readdata (len : Int)
  | senddata (data : List Byte)
  | write_pending (written : Int)
  | setSocket (s : Int)
  | close
deriving DecidableEq, Repr

/-- The state after one operation (the values handed back are dropped;
`readdata` is given a zeroed buffer). -/
def step (st : State) : Op → State
  | Op.read_pending recv => (read_pending st recv).1
  | Op.readdata len => (readdata st (fun _ => 0) len).1
  | Op.senddata data => (senddata st data).1
  | Op.write_pending written => (write_pending st written).1
  | Op.setSocket s => setSocket st s
  | Op.close => close st

/-- The state after a sequence of operations. -/
def run (st : State) (ops : List Op) : State :=
  ops.foldl step st

/-- The number of bytes held in `in_buffer`. -/
def inBufferSize (st : State) : Int :=
  ((st.in_buffer.map List.length).sum : Nat)

/-- The number of bytes held in `out_buffer`. -/
def outBufferSize (st : State) : Int :=
  ((st.out_buffer.map List.length).sum : Nat)

/-- The two buffer counters equal the number of bytes held in their buffer. -/
def CountersMatch (st : State) : Prop :=
  st.mTotalInBufferBytes = inBufferSize st ∧ st.mTotalOutBufferBytes = outBufferSize st

instance (st : State) : Decidable (CountersMatch st) :=
  inferInstanceAs (Decidable (_ ∧ _))

/-- The bytes that the socket takes in one `write_pending` call in which `write`
returns `written`: the first `written` bytes of the front block handed to it
on line 116; none when `out_buffer` is empty (`write` is not called) or when
`written` is negative or zero. -/
def acceptedBytes (st : State) (written : Int) : List Byte :=
  match st.out_buffer with
  | [] => []
  | p :: _ =>
    if written < 0 then []
    else if written = 0 then []
    else p.take written.toNat

/-- All the bytes that the socket takes during a sequence of operations started
in `st`, in order. -/
def acceptedStream : State → List Op → List Byte
  | _, [] => []
  | st, op :: ops =>
    (match op with
      | Op.write_pending written => acceptedBytes st written
      | _ => [])
    ++ acceptedStream (step st op) ops

/-- The payloads of the `senddata` calls of a sequence of operations, joined in
call order. -/
def payloads : List Op → List Byte
  | [] => []
  | op :: ops =>
    (match op with
      | Op.senddata data => data
      | _ => [])
    ++ payloads ops

/-- Whether a sequence of operations started in `st` consists of `senddata`
calls and of `write_pending` calls in which `write` returns at most the size
of the front block. -/
def outgoingAdmissible : State → List Op → Bool
  | _, [] => true
  | st, op :: ops =>
    (match op with
      | Op.senddata _ => true
      | Op.write_pending written =>
        (match st.out_buffer with
          | [] => true
          | p :: _ => decide (written ≤ (p.length : Int)))
      | _ => false)
    && outgoingAdmissible (step st op) ops

/-- The first `n` bytes of the caller's buffer. -/
def delivered (data : Nat → Byte) (n : Nat) : List Byte :=
  (List.range n).map data

end FsBioInterface

/-! ## Properties of `fsmanager.cc` -/

namespace FriendServerManager

theorem smoothing_ten (f : Nat) (hf : f < 10) :
    smoothing f 10 = ((10 : ℝ) - f) / 10 := by
  unfold smoothing
  rw [if_pos hf]
  rw [Nat.cast_sub hf.le]
  norm_num

/-- The tenth power of the exponential on line 100, for `W = 10`. -/
theorem exp_arg_pow_ten (f : Nat) (hf : f < 10) :
    Real.exp (-1 * smoothing f 10
        + Real.log ((MAX_DELAY_BETWEEN_FS_REQUESTS : Int) : ℝ) * (1.0 - smoothing f 10)) ^ 10
      = 3600 ^ f / Real.exp 1 ^ (10 - f) := by
  rw [smoothing_ten f hf]
  have h10 : ((10 : Nat) : ℝ) = 10 := by norm_num
  rw [← Real.exp_nat_mul, Real.exp_one_pow]
  have hlog : Real.exp (Real.log (3600 : ℝ) * f) = 3600 ^ f := by
    rw [mul_comm, Real.exp_nat_mul, Real.exp_log (by norm_num)]
  rw [eq_div_iff (Real.exp_pos _).ne', ← hlog, ← Real.exp_add]
  congr 1
  have hc : ((10 - f : Nat) : ℝ) = 10 - (f : ℝ) := by
    rw [Nat.cast_sub hf.le]; norm_num
  rw [hc]
  simp only [MAX_DELAY_BETWEEN_FS_REQUESTS]
  push_cast
  ring

/-- A rational enclosure of `3600 ^ f / e ^ (10 - f)` between two tenth powers
fixes the delay. -/
theorem delay_of_bounds (f k : Nat) (hf : f < 10)
    (h1 : (k : ℝ) ^ 10 * Real.exp 1 ^ (10 - f) ≤ 3600 ^ f)
    (h2 : (3600 : ℝ) ^ f < ((k : ℝ) + 1) ^ 10 * Real.exp 1 ^ (10 - f)) :
    delay_for_request f 10 = 30 + (k : Int) := by
  unfold delay_for_request
  have hp := exp_arg_pow_ten f hf
  set a := Real.exp (-1 * smoothing f 10
        + Real.log ((MAX_DELAY_BETWEEN_FS_REQUESTS : Int) : ℝ) * (1.0 - smoothing f 10)) with ha
  have hapos : 0 ≤ a := (Real.exp_pos _).le
  have hepos : (0 : ℝ) < Real.exp 1 ^ (10 - f) := pow_pos (Real.exp_pos _) _
  have hfl : ⌊a⌋ = (k : Int) := by
    rw [Int.floor_eq_iff]
    constructor
    · have : (k : ℝ) ^ 10 ≤ a ^ 10 := by
        rw [hp, le_div_iff₀ hepos]; exact h1
      have := le_of_pow_le_pow_left₀ (by norm_num) hapos this
      simpa using this
    · have : a ^ 10 < ((k : ℝ) + 1) ^ 10 := by
        rw [hp, div_lt_iff₀ hepos]; exact h2
      have := lt_of_pow_lt_pow_left₀ 10 (by positivity) this
      simpa using this
  rw [hfl]
  simp [MIN_DELAY_BETWEEN_FS_REQUESTS]

/-- The enclosure of `delay_of_bounds` with the decimal bounds
`2.7182818283 < e < 2.7182818286`. -/
theorem delay_of_rat_bounds (f k : Nat) (hf : f < 10)
    (h1 : (k : ℝ) ^ 10 * (2.7182818286 : ℝ) ^ (10 - f) ≤ 3600 ^ f)
    (h2 : (3600 : ℝ) ^ f < ((k : ℝ) + 1) ^ 10 * (2.7182818283 : ℝ) ^ (10 - f)) :
    delay_for_request f 10 = 30 + (k : Int) := by
  have hhi : Real.exp 1 ^ (10 - f) ≤ (2.7182818286 : ℝ) ^ (10 - f) :=
    pow_le_pow_left₀ (Real.exp_pos 1).le Real.exp_one_lt_d9.le _
  have hlo : (2.7182818283 : ℝ) ^ (10 - f) ≤ Real.exp 1 ^ (10 - f) :=
    pow_le_pow_left₀ (by norm_num) Real.exp_one_gt_d9.le _
  have hk : (0 : ℝ) ≤ (k : ℝ) ^ 10 := by positivity
  have hk1 : (0 : ℝ) ≤ ((k : ℝ) + 1) ^ 10 := by positivity
  apply delay_of_bounds f k hf
  · exact le_trans (mul_le_mul_of_nonneg_left hhi hk) h1
  · exact lt_of_lt_of_le h2 (mul_le_mul_of_nonneg_left hlo hk1)

theorem delay_0_10 : delay_for_request 0 10 = 30 := by
  simpa using delay_of_rat_bounds 0 0 (by norm_num) (by norm_num) (by norm_num)

theorem delay_1_10 : delay_for_request 1 10 = 30 := by
  simpa using delay_of_rat_bounds 1 0 (by norm_num) (by norm_num) (by norm_num)

theorem delay_2_10 : delay_for_request 2 10 = 32 := by
  simpa using delay_of_rat_bounds 2 2 (by norm_num) (by norm_num) (by norm_num)

theorem delay_3_10 : delay_for_request 3 10 = 35 := by
  simpa using delay_of_rat_bounds 3 5 (by norm_num) (by norm_num) (by norm_num)

theorem delay_4_10 : delay_for_request 4 10 = 44 := by
  simpa using delay_of_rat_bounds 4 14 (by norm_num) (by norm_num) (by norm_num)

theorem delay_5_10 : delay_for_request 5 10 = 66 := by
  simpa using delay_of_rat_bounds 5 36 (by norm_num) (by norm_num) (by norm_num)

theorem delay_6_10 : delay_for_request 6 10 = 121 := by
  simpa using delay_of_rat_bounds 6 91 (by norm_num) (by norm_num) (by norm_num)

theorem delay_7_10 : delay_for_request 7 10 = 258 := by
  simpa using delay_of_rat_bounds 7 228 (by norm_num) (by norm_num) (by norm_num)

theorem delay_8_10 : delay_for_request 8 10 = 603 := by
  simpa using delay_of_rat_bounds 8 573 (by norm_num) (by norm_num) (by norm_num)

theorem delay_9_10 : delay_for_request 9 10 = 1466 := by
  simpa using delay_of_rat_bounds 9 1436 (by norm_num) (by norm_num) (by norm_num)

/-- C1: for `W = 10` the delays computed on lines 99-100 of `threadTick` for
`f = 0, 1, ..., 9` friends are exactly 30, 30, 32, 35, 44, 66, 121, 258, 603 and
1466 seconds, with `exp`, `log` and `floor` taken over the reals. -/
theorem C1_delay_table :
    (List.range 10).map (fun f => delay_for_request f 10)
      = [30, 30, 32, 35, 44, 66, 121, 258, 603, 1466] := by
  have hr : List.range 10 = [0, 1, 2, 3, 4, 5, 6, 7, 8, 9] := by decide
  rw [hr]
  simp only [List.map, delay_0_10, delay_1_10, delay_2_10, delay_3_10, delay_4_10,
    delay_5_10, delay_6_10, delay_7_10, delay_8_10, delay_9_10]

end FriendServerManager

namespace FriendServerManager

/-- When the friend count equals the wanted count, line 99 takes `s = 1.0` and
the delay is the minimum one. -/
theorem delay_at_wanted (W : Nat) : delay_for_request W W = 30 := by
  unfold delay_for_request smoothing
  rw [if_neg (lt_irrefl W)]
  have h0 : ⌊Real.exp (-1 * (1.0 : ℝ)
      + Real.log ((MAX_DELAY_BETWEEN_FS_REQUESTS : Int) : ℝ) * (1.0 - 1.0))⌋ = 0 := by
    rw [Int.floor_eq_iff]
    have e : (-1 * (1.0 : ℝ)
      + Real.log ((MAX_DELAY_BETWEEN_FS_REQUESTS : Int) : ℝ) * (1.0 - 1.0)) = -1 := by
      norm_num
    rw [e]
    constructor
    · simpa using (Real.exp_pos (-1)).le
    · norm_num
  rw [h0]
  simp [MIN_DELAY_BETWEEN_FS_REQUESTS]

/-- The control flow of one tick once the three guards are passed. -/
theorem threadTick_guarded (env : Env) (st : State)
    (haddr : st.mServerAddress ≠ "") (hW : 0 < st.mFriendsToRequest)
    (hf : env.getPgpFriendList.length ≤ st.mFriendsToRequest) :
    threadTick env st =
      if st.mLastFriendReqestCampain
          + delay_for_request env.getPgpFriendList.length st.mFriendsToRequest < env.now
      then campaign env st else (st, { requests := [], added := [] }) := by
  unfold threadTick threadTickWith
  rw [if_neg haddr]
  have hg : ¬ (st.mFriendsToRequest = 0 ∨ st.mFriendsToRequest < env.getPgpFriendList.length) := by
    omega
  simp only [if_neg hg]

end FriendServerManager

namespace FriendServerManager

/-- A tick that performs a request is a tick that ran `campaign`. -/
theorem threadTick_of_requested (env : Env) (st : State)
    (h : (threadTick env st).2.requests ≠ []) : threadTick env st = campaign env st := by
  unfold threadTick threadTickWith at h ⊢
  dsimp only at h ⊢
  split_ifs at h ⊢ <;> first | rfl | exact absurd rfl h

/-- What the loop of lines 122-142 decides for one invite: the arguments of the
`addSslOnlyFriend` call it makes, if any. -/
theorem addNewFriends_eq_filterMap (parse : String → Option RsPeerDetails)
    (lst : List RsPeerId) (invites : List (String × Bool)) :
    addNewFriends parse lst invites
      = invites.filterMap (fun invite =>
          match parse invite.1 with
          | some det => if det.id ∈ lst then none else some (det.id, det.gpg_id, det)
          | none => none) := by
  induction invites with
  | nil => rfl
  | cons invite rest ih =>
    unfold addNewFriends
    cases hp : parse invite.1 with
    | none => simp [List.filterMap_cons, hp, ih]
    | some det =>
      by_cases hm : det.id ∈ lst
      · simp [List.filterMap_cons, hp, hm, ih]
      · simp [List.filterMap_cons, hp, hm, ih]

/-- C2 as stated fails: with 5 friends, 10 wanted and the last campaign at
time 1000, the tick at time 1066 satisfies `now ≥ lastCampaign + delay` and yet
performs no request and leaves `lastCampaign` at 1000. -/
theorem C2_counterexample :
    (sampleState 10 1000).mServerAddress ≠ ""
    ∧ 0 < (sampleState 10 1000).mFriendsToRequest
    ∧ (sampleEnv 5 1066).getPgpFriendList.length ≤ (sampleState 10 1000).mFriendsToRequest
    ∧ (sampleEnv 5 1066).now ≥ (sampleState 10 1000).mLastFriendReqestCampain
        + delay_for_request (sampleEnv 5 1066).getPgpFriendList.length
            (sampleState 10 1000).mFriendsToRequest
    ∧ (threadTick (sampleEnv 5 1066) (sampleState 10 1000)).2.requests = []
    ∧ (threadTick (sampleEnv 5 1066) (sampleState 10 1000)).1.mLastFriendReqestCampain
        = 1000 := by
  have hd : delay_for_request (sampleEnv 5 1066).getPgpFriendList.length
      (sampleState 10 1000).mFriendsToRequest = 66 := delay_5_10
  have ht : threadTick (sampleEnv 5 1066) (sampleState 10 1000)
      = (sampleState 10 1000, { requests := [], added := [] }) := by
    rw [threadTick_guarded _ _ (by decide) (by decide) (by decide), hd]
    exact if_neg (by decide)
  refine ⟨by decide, by decide, by decide, ?_, ?_, ?_⟩
  · rw [hd]; decide
  · rw [ht]
  · rw [ht]; rfl

/-- C3: in a tick that performs a campaign, the sequence of `addSslOnlyFriend`
calls is obtained from the returned invites, in order, by keeping exactly the
invites that parse and whose parsed location is not in the friend-location list
read at the start of the campaign, one call for each of them; so no call is made
for a known location, and every call comes from an invite that parsed. -/
theorem C3_added_exactly_new (env : Env) (st : State)
    (h : (threadTick env st).2.requests ≠ []) :
    ∃ req, (threadTick env st).2.requests = [req]
      ∧ (threadTick env st).2.added
          = (env.requestFriends req).filterMap (fun invite =>
              match env.parseShortInvite invite.1 with
              | some det =>
                if det.id ∈ env.getFriendList then none else some (det.id, det.gpg_id, det)
              | none => none)
      ∧ (∀ c ∈ (threadTick env st).2.added, c.1 ∉ env.getFriendList)
      ∧ (∀ c ∈ (threadTick env st).2.added, ∃ invite ∈ env.requestFriends req,
            env.parseShortInvite invite.1 = some c.2.2 ∧ c.1 = c.2.2.id)
      ∧ (∀ invite ∈ env.requestFriends req, ∀ det,
            env.parseShortInvite invite.1 = some det → det.id ∉ env.getFriendList →
              (det.id, det.gpg_id, det) ∈ (threadTick env st).2.added) := by
  rw [threadTick_of_requested env st h]
  refine ⟨_, rfl, ?_, ?_, ?_, ?_⟩
  · exact addNewFriends_eq_filterMap _ _ _
  · intro c hc
    simp only [campaign, addNewFriends_eq_filterMap, List.mem_filterMap] at hc
    obtain ⟨invite, _, hinv⟩ := hc
    cases hp : env.parseShortInvite invite.1 with
    | none => simp [hp] at hinv
    | some det =>
      by_cases hm : det.id ∈ env.getFriendList
      · simp [hp, hm] at hinv
      · simp [hp, hm] at hinv
        rw [← hinv]; exact hm
  · intro c hc
    simp only [campaign, addNewFriends_eq_filterMap, List.mem_filterMap] at hc
    obtain ⟨invite, hmem, hinv⟩ := hc
    cases hp : env.parseShortInvite invite.1 with
    | none => simp [hp] at hinv
    | some det =>
      by_cases hm : det.id ∈ env.getFriendList
      · simp [hp, hm] at hinv
      · simp [hp, hm] at hinv
        refine ⟨invite, hmem, ?_⟩
        rw [← hinv]; exact ⟨hp, rfl⟩
  · intro invite hmem det hp hm
    simp only [campaign, addNewFriends_eq_filterMap, List.mem_filterMap]
    exact ⟨invite, hmem, by simp [hp, hm]⟩

/-- C3 at a concrete campaign: of the invites `"bad"` (does not parse),
`"known"` (already a friend location) and `"new"`, only `"new"` is added. -/
theorem C3_added_exactly_new_witness :
    (threadTick (sampleEnv 5 1067) (sampleState 10 1000)).2.requests ≠ []
    ∧ ∃ req, (threadTick (sampleEnv 5 1067) (sampleState 10 1000)).2.requests = [req]
      ∧ (threadTick (sampleEnv 5 1067) (sampleState 10 1000)).2.added
          = [("new", "pgp-new", { id := "new", gpg_id := "pgp-new", dyndns := "" })] := by
  have h : (threadTick (sampleEnv 5 1067) (sampleState 10 1000)).2.requests ≠ [] := by
    rw [threadTick_guarded _ _ (by decide) (by decide) (by decide)]
    have hd : delay_for_request (sampleEnv 5 1067).getPgpFriendList.length
        (sampleState 10 1000).mFriendsToRequest = 66 := delay_5_10
    rw [hd, if_pos (by decide)]
    simp [campaign]
  obtain ⟨req, hreq, hadd, _⟩ := C3_added_exactly_new _ _ h
  refine ⟨h, req, hreq, ?_⟩
  rw [hadd]
  simp [sampleEnv, sampleParse]

/-- C4 fails on the code: with the number of friends equal to the wanted
number (10 of 10), last campaign at time 0 and the clock at 31, the tick passes
the guard of line 78, computes the delay 30 and performs a request. -/
theorem C4_request_at_wanted_count :
    (sampleState 10 0).mFriendsToRequest ≤ (sampleEnv 10 31).getPgpFriendList.length
    ∧ delay_for_request (sampleEnv 10 31).getPgpFriendList.length
        (sampleState 10 0).mFriendsToRequest = 30
    ∧ (threadTick (sampleEnv 10 31) (sampleState 10 0)).2.requests ≠ [] := by
  have hd : delay_for_request (sampleEnv 10 31).getPgpFriendList.length
      (sampleState 10 0).mFriendsToRequest = 30 := delay_at_wanted 10
  refine ⟨by decide, hd, ?_⟩
  rw [threadTick_guarded _ _ (by decide) (by decide) (by decide), hd, if_pos (by decide)]
  simp [campaign]

end FriendServerManager

/-! ## Properties of `TorManager.cpp` -/

namespace Tor

/-- Feeding messages to a log of at most 50 lines leaves the last 50 lines of
the old log followed by the messages. -/
theorem foldl_processLogMessage (msgs : List String) (sys : System)
    (hl : sys.d.logMessages.length ≤ 50) :
    (msgs.foldl processLogMessage sys).d.logMessages
      = (sys.d.logMessages ++ msgs).drop ((sys.d.logMessages ++ msgs).length - 50) := by
  induction msgs generalizing sys with
  | nil =>
    have h0 : (sys.d.logMessages ++ []).length - 50 = 0 := by
      simp only [List.append_nil]; omega
    rw [h0]; simp
  | cons m rest ih =>
    rw [List.foldl_cons]
    by_cases hfull : sys.d.logMessages.length ≥ 50
    · have hlen : sys.d.logMessages.length = 50 := by omega
      cases hlog : sys.d.logMessages with
      | nil => rw [hlog] at hlen; simp at hlen
      | cons a t =>
        have ht : t.length = 49 := by rw [hlog] at hlen; simpa using hlen
        have hstep : (processLogMessage sys m).d.logMessages = t ++ [m] := by
          simp [processLogMessage, hlog, ht]
        rw [ih (processLogMessage sys m) (by rw [hstep]; simp [ht]), hstep]
        have e1 : (t ++ [m] ++ rest).length - 50 = rest.length := by
          simp only [List.length_append, List.length_cons, List.length_nil, ht]; omega
        have e2 : (a :: t ++ m :: rest).length - 50 = rest.length + 1 := by
          simp only [List.length_append, List.length_cons, ht]; omega
        rw [e1, e2]
        simp
    · have hstep : (processLogMessage sys m).d.logMessages = sys.d.logMessages ++ [m] := by
        simp only [processLogMessage, if_neg hfull]
      have hlt : sys.d.logMessages.length < 50 := by omega
      rw [ih (processLogMessage sys m) (by rw [hstep]; simp; omega), hstep]
      simp

/-- C5: starting from an empty log, after `processLogMessage` has been called
with the messages `msgs` in order, `logMessages()` is the last
`min msgs.length 50` of them in arrival order, so it never holds more than 50
lines. -/
theorem C5_log_keeps_last_50 (sys : System) (msgs : List String)
    (hempty : logMessages sys = []) :
    logMessages (msgs.foldl processLogMessage sys)
        = msgs.drop (msgs.length - min msgs.length 50)
    ∧ (logMessages (msgs.foldl processLogMessage sys)).length = min msgs.length 50
    ∧ (logMessages (msgs.foldl processLogMessage sys)).length ≤ 50 := by
  unfold logMessages at hempty ⊢
  have h := foldl_processLogMessage msgs sys (by rw [hempty]; simp)
  rw [hempty, List.nil_append] at h
  have hmin : msgs.length - min msgs.length 50 = msgs.length - 50 := by omega
  rw [hmin, h]
  refine ⟨rfl, ?_, ?_⟩
  · rw [List.length_drop]; omega
  · rw [List.length_drop]; omega

/-- C5 at 52 concrete lines: the two oldest are dropped. -/
theorem C5_log_keeps_last_50_witness :
    logMessages (sampleSystem (sampleFs [] true)) = []
    ∧ logMessages (sampleLines.foldl processLogMessage (sampleSystem (sampleFs [] true)))
        = sampleLines.drop 2
    ∧ (logMessages
        (sampleLines.foldl processLogMessage (sampleSystem (sampleFs [] true)))).length = 50 := by
  have h := C5_log_keeps_last_50 (sampleSystem (sampleFs [] true)) sampleLines rfl
  have hlen : sampleLines.length = 52 := by simp [sampleLines]
  rw [hlen] at h
  exact ⟨rfl, h.1, h.2.1⟩

end Tor

namespace Tor

theorem makePath_length (path1 path2 : String) :
    path2.length ≤ (makePath path1 path2).length := by
  unfold makePath
  split_ifs <;> simp only [String.length_append] <;> omega

theorem ne_empty_of_length_pos (s : String) (h : 0 < s.length) : s ≠ "" := by
  intro hs
  rw [hs] at h
  exact absurd h (by decide)

theorem torFilename_length_pos (w : World) : 0 < (torFilename w).length := by
  unfold torFilename
  split_ifs <;> decide

theorem torFilename_drop_ne_empty (w : World) : (torFilename w).drop 1 ≠ "" := by
  unfold torFilename
  split_ifs <;> decide

theorem makePath_torFilename_ne_empty (w : World) (path : String) :
    makePath path (torFilename w) ≠ "" :=
  ne_empty_of_length_pos _
    (lt_of_lt_of_le (torFilename_length_pos w) (makePath_length path (torFilename w)))

/-- The path returned by `torExecutablePath` is never empty: it is one of the
probed locations or the bare file name. -/
theorem torExecutablePath_ne_empty (w : World) (fs : FileSystem) :
    torExecutablePath w fs ≠ "" := by
  unfold torExecutablePath
  dsimp only
  by_cases h1 : fileExists fs (makePath (w.getDirectory w.executablePath) (torFilename w)) = true
  · rw [if_pos h1]
    exact makePath_torFilename_ne_empty w _
  · rw [if_neg h1]
    cases hb : w.BUNDLED_TOR_PATH with
    | none =>
      dsimp only
      split_ifs
      · exact makePath_torFilename_ne_empty w _
      · exact torFilename_drop_ne_empty w
    | some path =>
      dsimp only
      by_cases h2 : fileExists fs (makePath path (torFilename w)) = true
      · rw [if_pos h2]
        exact makePath_torFilename_ne_empty w _
      · rw [if_neg h2]
        dsimp only
        split_ifs
        · exact makePath_torFilename_ne_empty w _
        · exact torFilename_drop_ne_empty w

/-- When the binary is at none of the probed locations, `torExecutablePath`
falls back to the bare file name (line 541). -/
theorem torExecutablePath_of_not_found (w : World) (fs : FileSystem)
    (h : ∀ p ∈ torSearchLocations w, fileExists fs p = false) :
    torExecutablePath w fs = (torFilename w).drop 1 := by
  have h1 : fileExists fs (makePath (w.getDirectory w.executablePath) (torFilename w)) = false :=
    h _ (by simp [torSearchLocations])
  unfold torExecutablePath
  dsimp only
  rw [h1]
  simp only [Bool.false_eq_true, if_false]
  cases hb : w.BUNDLED_TOR_PATH with
  | none =>
    dsimp only
    by_cases ha : w.APPLE = true
    · have h3 : fileExists fs (makePath "/usr/local/opt/tor/bin" (torFilename w)) = false :=
        h _ (by simp [torSearchLocations, ha])
      simp [h3]
    · simp [ha]
  | some path =>
    have h2 : fileExists fs (makePath path (torFilename w)) = false :=
      h _ (by simp [torSearchLocations, hb])
    dsimp only
    rw [h2]
    simp only [Bool.false_eq_true, if_false]
    by_cases ha : w.APPLE = true
    · have h3 : fileExists fs (makePath "/usr/local/opt/tor/bin" (torFilename w)) = false :=
        h _ (by simp [torSearchLocations, ha])
      simp [h3]
    · simp [ha]

end Tor

namespace Tor

theorem append_ne_empty (a b : String) (h : 0 < a.length) : a ++ b ≠ "" :=
  ne_empty_of_length_pos _ (by rw [String.length_append]; omega)

/-- Paths built by `makePath` in one directory differ when the names differ. -/
theorem makePath_right_injective (path1 a b : String)
    (h : makePath path1 a = makePath path1 b) : a = b := by
  unfold makePath at h
  split_ifs at h
  · have := congrArg String.data h
    simp at this
    exact String.ext this
  · have := congrArg String.data h
    simp at this
    exact String.ext this

theorem torrc_ne_default_torrc (dataDir : String) :
    makePath dataDir "torrc" ≠ makePath dataDir "default_torrc" := by
  intro h
  exact absurd (makePath_right_injective _ _ _ h) (by decide)

/-- The call `start` succeeds exactly when the data directory can be created and
`default_torrc` exists or can be written. -/
theorem start_true_iff (w : World) (sys : System) :
    (start w sys).1 = true ↔
      (sys.fs.checkCreateDirectory sys.d.dataDir = true
        ∧ (fileExists sys.fs (makePath sys.d.dataDir "default_torrc") = true
            ∨ sys.fs.canOpenForWriting (makePath sys.d.dataDir "default_torrc") = true)) := by
  obtain ⟨⟨process, control, dataDir, hsd, logs, err, cn, hs⟩, fs, events⟩ := sys
  have hexe := torExecutablePath_ne_empty w fs
  by_cases hdir : fs.checkCreateDirectory dataDir = true <;>
  by_cases hex : fileExists fs (makePath dataDir "default_torrc") = true <;>
  by_cases hwr : fs.canOpenForWriting (makePath dataDir "default_torrc") = true <;>
  by_cases herr : err = "" <;> cases process <;>
    simp [start, hexe, hdir, hex, hwr, herr, createDefaultTorrc]

end Tor

namespace Tor

/-- What `start` leaves behind when it succeeds and `torrc` is missing. -/
theorem start_of_missing_torrc (w : World) (sys : System)
    (hstart : (start w sys).1 = true)
    (hmissing : fileExists sys.fs (makePath sys.d.dataDir "torrc") = false) :
    (start w sys).2.d.configNeeded = true
    ∧ (start w sys).2.events = sys.events ++
        (if w.rsEvents then [{ mTorManagerEventType := .CONFIGURATION_NEEDED }] else [])
    ∧ (start w sys).2.d.process.isSome = true
    ∧ (start w sys).2.d.control = sys.d.control := by
  rw [start_true_iff] at hstart
  obtain ⟨hdir, hdef⟩ := hstart
  obtain ⟨⟨process, control, dataDir, hsd, logs, err, cn, hs⟩, fs, events⟩ := sys
  dsimp only at hdir hdef hmissing
  have hexe := torExecutablePath_ne_empty w fs
  have hne := torrc_ne_default_torrc dataDir
  have hm : fs.files (makePath dataDir "torrc") = none := by
    simpa [fileExists] using hmissing
  by_cases hex : fileExists fs (makePath dataDir "default_torrc") = true
  · by_cases herr : err = "" <;> cases process <;> by_cases hev : w.rsEvents = true <;>
      simp [start, hexe, hdir, hex, herr, hev, sendEvent, checkFile, hm]
  · have hwr : fs.canOpenForWriting (makePath dataDir "default_torrc") = true := by
      rcases hdef with h | h
      · exact absurd h hex
      · exact h
    by_cases herr : err = "" <;> cases process <;> by_cases hev : w.rsEvents = true <;>
      simp [start, hexe, hdir, hex, hwr, herr, hev, sendEvent, checkFile, hm,
        createDefaultTorrc, hne]

/-- Once `configNeeded` is set, the loop of `getConfFinished` changes nothing. -/
theorem foldl_getConfFinishedStep_of_configNeeded (w : World) (values : List String)
    (sys : System) (h : sys.d.configNeeded = true) :
    values.foldl (getConfFinishedStep w) sys = sys := by
  induction values with
  | nil => rfl
  | cons v rest ih =>
    have hstep : getConfFinishedStep w sys v = sys := by
      unfold getConfFinishedStep
      cases w.StringToInt v <;> simp [h]
    rw [List.foldl_cons, hstep, ih]

/-- Without a value that parses to 1, the loop of `getConfFinished` changes
nothing. -/
theorem foldl_getConfFinishedStep_of_no_one (w : World) (values : List String)
    (sys : System) (h : ∀ v ∈ values, w.StringToInt v ≠ some 1) :
    values.foldl (getConfFinishedStep w) sys = sys := by
  induction values with
  | nil => rfl
  | cons v rest ih =>
    have hv : w.StringToInt v ≠ some 1 := h v (List.mem_cons_self _ _)
    have hstep : getConfFinishedStep w sys v = sys := by
      unfold getConfFinishedStep
      cases hp : w.StringToInt v with
      | none => rfl
      | some n =>
        have hn : n ≠ 1 := by
          intro h1; rw [hp, h1] at hv; exact hv rfl
        simp [hn]
    rw [List.foldl_cons, hstep, ih (fun x hx => h x (List.mem_cons_of_mem _ hx))]

/-- With `configNeeded` false and a value that parses to 1, the loop of
`getConfFinished` sets `configNeeded` and runs the event block once. -/
theorem foldl_getConfFinishedStep_of_one (w : World) (values : List String)
    (sys : System) (hc : sys.d.configNeeded = false)
    (h : ∃ v ∈ values, w.StringToInt v = some 1) :
    values.foldl (getConfFinishedStep w) sys
      = sendEvent w { sys with d := { sys.d with configNeeded := true } }
          { mTorManagerEventType := .CONFIGURATION_NEEDED } := by
  induction values with
  | nil => simp at h
  | cons v rest ih =>
    rw [List.foldl_cons]
    by_cases hv : w.StringToInt v = some 1
    · have hstep : getConfFinishedStep w sys v
          = sendEvent w { sys with d := { sys.d with configNeeded := true } }
              { mTorManagerEventType := .CONFIGURATION_NEEDED } := by
        unfold getConfFinishedStep
        rw [hv]
        simp [hc]
      rw [hstep]
      apply foldl_getConfFinishedStep_of_configNeeded
      unfold sendEvent
      split_ifs <;> rfl
    · have hstep : getConfFinishedStep w sys v = sys := by
        unfold getConfFinishedStep
        cases hp : w.StringToInt v with
        | none => rfl
        | some n =>
          have hn : n ≠ 1 := by
            intro h1; rw [hp, h1] at hv; exact hv rfl
          simp [hn]
      rw [hstep]
      apply ih
      obtain ⟨x, hx, hx1⟩ := h
      rcases List.mem_cons.mp hx with rfl | hxr
      · exact absurd hx1 hv
      · exact ⟨x, hxr, hx1⟩

end Tor

namespace Tor

/-- What `start` leaves behind when it succeeds and a `torrc` file exists,
whatever its size: `configNeeded` and the event log are untouched. -/
theorem start_of_present_torrc (w : World) (sys : System) (content : String)
    (hstart : (start w sys).1 = true)
    (hpresent : sys.fs.files (makePath sys.d.dataDir "torrc") = some content) :
    (start w sys).2.d.configNeeded = sys.d.configNeeded
    ∧ (start w sys).2.events = sys.events := by
  rw [start_true_iff] at hstart
  obtain ⟨hdir, hdef⟩ := hstart
  obtain ⟨⟨process, control, dataDir, hsd, logs, err, cn, hs⟩, fs, events⟩ := sys
  dsimp only at hdir hdef hpresent
  have hexe := torExecutablePath_ne_empty w fs
  have hne := torrc_ne_default_torrc dataDir
  have hlen : (makePath dataDir "torrc").length ≠ 0 := by
    have := makePath_length dataDir "torrc"
    have h5 : "torrc".length = 5 := by decide
    omega
  by_cases hex : fileExists fs (makePath dataDir "default_torrc") = true
  · by_cases herr : err = "" <;> cases process <;>
      simp [start, hexe, hdir, hex, herr, checkFile, hpresent, hlen]
  · have hwr : fs.canOpenForWriting (makePath dataDir "default_torrc") = true := by
      rcases hdef with h | h
      · exact absurd h hex
      · exact h
    by_cases herr : err = "" <;> cases process <;>
      simp [start, hexe, hdir, hex, hwr, herr, checkFile, hpresent, hlen,
        createDefaultTorrc, hne]

/-- C6 fails on the code: with an existing `torrc` of size 0 (and an existing
`default_torrc`), `start()` succeeds and starts the child process without
setting `configNeeded` and without sending `CONFIGURATION_NEEDED`: line 375
tests the length of the path string `torrc`, not `file_size`. -/
theorem C6_empty_torrc_not_reported :
    checkFile (sampleFs [("/data/tor/default_torrc", defaultTorrcContent),
        ("/data/tor/torrc", "")] true) "/data/tor/torrc" = some 0
    ∧ makePath (sampleSystem (sampleFs [("/data/tor/default_torrc", defaultTorrcContent),
        ("/data/tor/torrc", "")] true)).d.dataDir "torrc" = "/data/tor/torrc"
    ∧ (start (sampleWorld true) (sampleSystem (sampleFs
        [("/data/tor/default_torrc", defaultTorrcContent),
         ("/data/tor/torrc", "")] true))).1 = true
    ∧ configurationNeeded (start (sampleWorld true) (sampleSystem (sampleFs
        [("/data/tor/default_torrc", defaultTorrcContent),
         ("/data/tor/torrc", "")] true))).2 = false
    ∧ (start (sampleWorld true) (sampleSystem (sampleFs
        [("/data/tor/default_torrc", defaultTorrcContent),
         ("/data/tor/torrc", "")] true))).2.events = []
    ∧ childStarts (start (sampleWorld true) (sampleSystem (sampleFs
        [("/data/tor/default_torrc", defaultTorrcContent),
         ("/data/tor/torrc", "")] true))).2 = 1 := by
  decide

end Tor

namespace Tor

/-- C7 (amended): if `start()` succeeds with `torrc` missing, it sets
`configNeeded` and runs the `CONFIGURATION_NEEDED` block once (one event when
`rsEvents` is set); `controlStatusChanged(Connected)` then issues no
`GETCONF DisableNetwork` (it only takes ownership), and a later
`getConfFinished`, whatever the reply, sends no further event: the sequence
produces one `CONFIGURATION_NEEDED` event, not two. -/
theorem C7_configuration_needed_once (w : World) (sys : System) (sender : TorControlCommand)
    (hstart : (start w sys).1 = true)
    (hmissing : fileExists sys.fs (makePath sys.d.dataDir "torrc") = false) :
    configurationNeeded (start w sys).2 = true
    ∧ (start w sys).2.events = sys.events ++
        (if w.rsEvents then [{ mTorManagerEventType := .CONFIGURATION_NEEDED }] else [])
    ∧ (controlStatusChanged (start w sys).2 Status.Connected).d.control.calls
        = sys.d.control.calls ++ [ControlCall.takeOwnership]
    ∧ (getConfFinished w (controlStatusChanged (start w sys).2 Status.Connected) sender).events
        = (start w sys).2.events
    ∧ countConfigurationNeeded
        (getConfFinished w (controlStatusChanged (start w sys).2 Status.Connected) sender).events
        = countConfigurationNeeded sys.events + (if w.rsEvents then 1 else 0) := by
  obtain ⟨hcn, hev, hproc, hctl⟩ := start_of_missing_torrc w sys hstart hmissing
  have hcs : (controlStatusChanged (start w sys).2 Status.Connected)
      = { (start w sys).2 with d := { (start w sys).2.d with control :=
            { calls := (start w sys).2.d.control.calls ++ [ControlCall.takeOwnership] } } } := by
    simp [controlStatusChanged, hcn, hproc]
  have hcn2 : (controlStatusChanged (start w sys).2 Status.Connected).d.configNeeded = true := by
    rw [hcs]; exact hcn
  have hgc : getConfFinished w (controlStatusChanged (start w sys).2 Status.Connected) sender
      = controlStatusChanged (start w sys).2 Status.Connected := by
    cases sender with
    | other => rfl
    | GetConfCommand get =>
      exact foldl_getConfFinishedStep_of_configNeeded w _ _ hcn2
  have hev3 : (getConfFinished w (controlStatusChanged (start w sys).2 Status.Connected)
      sender).events = (start w sys).2.events := by
    rw [hgc, hcs]
  refine ⟨hcn, hev, ?_, hev3, ?_⟩
  · rw [hcs, hctl]
  · rw [hev3, hev]
    by_cases hr : w.rsEvents = true <;> simp [countConfigurationNeeded, hr]

/-- The amended C7 in a concrete run: no `torrc`, event service present, the
reply `DisableNetwork=1`. -/
theorem C7_configuration_needed_once_witness :
    countConfigurationNeeded
      (getConfFinished (sampleWorld true)
        (controlStatusChanged (start (sampleWorld true) (sampleSystem (sampleFs [] true))).2
          Status.Connected)
        (TorControlCommand.GetConfCommand (fun _ => ["1"]))).events = 0 + 1 :=
  (C7_configuration_needed_once (sampleWorld true) (sampleSystem (sampleFs [] true))
    (TorControlCommand.GetConfCommand (fun _ => ["1"])) (by decide) (by decide)).2.2.2.2

/-- C7 as stated fails: with `torrc` missing and the event service present,
`start(); controlStatusChanged(Connected); getConfFinished(DisableNetwork=1)`
leaves exactly one `CONFIGURATION_NEEDED` event in the log, and no
`GETCONF DisableNetwork` was issued. -/
theorem C7_counterexample :
    fileExists (sampleFs [] true) "/data/tor/torrc" = false
    ∧ (start (sampleWorld true) (sampleSystem (sampleFs [] true))).1 = true
    ∧ (sampleWorld true).StringToInt "1" = some 1
    ∧ (getConfFinished (sampleWorld true)
        (controlStatusChanged (start (sampleWorld true) (sampleSystem (sampleFs [] true))).2
          Status.Connected)
        (TorControlCommand.GetConfCommand (fun _ => ["1"]))).events
        = [{ mTorManagerEventType := .CONFIGURATION_NEEDED }]
    ∧ countConfigurationNeeded
        (getConfFinished (sampleWorld true)
          (controlStatusChanged (start (sampleWorld true) (sampleSystem (sampleFs [] true))).2
            Status.Connected)
          (TorControlCommand.GetConfCommand (fun _ => ["1"]))).events ≠ 2
    ∧ (controlStatusChanged (start (sampleWorld true) (sampleSystem (sampleFs [] true))).2
          Status.Connected).d.control.calls = [ControlCall.takeOwnership] := by
  decide

/-- C8 (amended): for `getConfFinished` called with a `GetConfCommand` while
`configNeeded` is false, and every list of `DisableNetwork` values: if some
value parses to the integer 1 (even when several do), `configNeeded` becomes
true and the event block runs once, which sends exactly one
`CONFIGURATION_NEEDED` event when `rsEvents` is set and none when it is null;
otherwise `configNeeded` stays false and no event is sent. -/
theorem C8_getConfFinished_once (w : World) (sys : System) (get : String → List String)
    (hc : configurationNeeded sys = false) :
    ((∃ v ∈ get "DisableNetwork", w.StringToInt v = some 1) →
        configurationNeeded (getConfFinished w sys (TorControlCommand.GetConfCommand get)) = true
        ∧ (getConfFinished w sys (TorControlCommand.GetConfCommand get)).events
            = sys.events ++
              (if w.rsEvents then [{ mTorManagerEventType := .CONFIGURATION_NEEDED }] else []))
    ∧ ((¬ ∃ v ∈ get "DisableNetwork", w.StringToInt v = some 1) →
        configurationNeeded (getConfFinished w sys (TorControlCommand.GetConfCommand get)) = false
        ∧ (getConfFinished w sys (TorControlCommand.GetConfCommand get)).events
            = sys.events) := by
  unfold configurationNeeded at hc ⊢
  constructor
  · intro h
    have e : getConfFinished w sys (TorControlCommand.GetConfCommand get)
        = sendEvent w { sys with d := { sys.d with configNeeded := true } }
            { mTorManagerEventType := .CONFIGURATION_NEEDED } :=
      foldl_getConfFinishedStep_of_one w _ sys hc h
    rw [e]
    unfold sendEvent
    split_ifs <;> simp
  · intro h
    have e : getConfFinished w sys (TorControlCommand.GetConfCommand get) = sys :=
      foldl_getConfFinishedStep_of_no_one w _ sys (fun v hv h1 => h ⟨v, hv, h1⟩)
    rw [e]
    exact ⟨hc, rfl⟩

/-- The amended C8 in a concrete run: three values of which two parse to 1,
event service present: one event. -/
theorem C8_getConfFinished_once_witness :
    configurationNeeded (getConfFinished (sampleWorld true) (sampleSystem (sampleFs [] true))
        (TorControlCommand.GetConfCommand (fun _ => ["1", "x", "1"]))) = true
    ∧ (getConfFinished (sampleWorld true) (sampleSystem (sampleFs [] true))
        (TorControlCommand.GetConfCommand (fun _ => ["1", "x", "1"]))).events
        = [] ++ (if (sampleWorld true).rsEvents
            then [{ mTorManagerEventType := .CONFIGURATION_NEEDED }] else []) :=
  (C8_getConfFinished_once (sampleWorld true) (sampleSystem (sampleFs [] true))
    (fun _ => ["1", "x", "1"]) (by decide)).1 ⟨"1", by decide, by decide⟩

/-- C8 as stated fails when the event service is absent (`rsEvents` null):
the value `"1"` sets `configNeeded` but no `CONFIGURATION_NEEDED` event is
sent. -/
theorem C8_counterexample :
    configurationNeeded (sampleSystem (sampleFs [] true)) = false
    ∧ (sampleWorld false).StringToInt "1" = some 1
    ∧ configurationNeeded (getConfFinished (sampleWorld false) (sampleSystem (sampleFs [] true))
        (TorControlCommand.GetConfCommand (fun _ => ["1"]))) = true
    ∧ countConfigurationNeeded (getConfFinished (sampleWorld false)
        (sampleSystem (sampleFs [] true))
        (TorControlCommand.GetConfCommand (fun _ => ["1"]))).events = 0 := by
  decide

end Tor

namespace Tor

/-- A successful `start` leaves no error, starts the child once more, and
hands it the path found by `torExecutablePath`. -/
theorem start_success (w : World) (sys : System) (hstart : (start w sys).1 = true) :
    errorMessage (start w sys).2 = ""
    ∧ childStarts (start w sys).2 = childStarts sys + 1
    ∧ (start w sys).2.d.process.map (fun p => p.executable)
        = some (torExecutablePath w sys.fs) := by
  rw [start_true_iff] at hstart
  obtain ⟨hdir, hdef⟩ := hstart
  obtain ⟨⟨process, control, dataDir, hsd, logs, err, cn, hs⟩, fs, events⟩ := sys
  dsimp only at hdir hdef
  have hexe := torExecutablePath_ne_empty w fs
  by_cases hex : fileExists fs (makePath dataDir "default_torrc") = true
  · by_cases herr : err = "" <;> cases process <;>
      simp [start, hexe, hdir, hex, herr, errorMessage, childStarts, sendEvent, apply_ite]
  · have hwr : fs.canOpenForWriting (makePath dataDir "default_torrc") = true := by
      rcases hdef with h | h
      · exact absurd h hex
      · exact h
    by_cases herr : err = "" <;> cases process <;>
      simp [start, hexe, hdir, hex, hwr, herr, errorMessage, childStarts, sendEvent,
        createDefaultTorrc, apply_ite]

/-- What `start` does when the data directory cannot be created, or
`default_torrc` is missing and cannot be written. -/
theorem start_unwritable (w : World) (sys : System)
    (h : sys.fs.checkCreateDirectory sys.d.dataDir = false
      ∨ (fileExists sys.fs (makePath sys.d.dataDir "default_torrc") = false
          ∧ sys.fs.canOpenForWriting (makePath sys.d.dataDir "default_torrc") = false)) :
    (start w sys).1 = false
    ∧ errorMessage (start w sys).2
        = (if sys.fs.checkCreateDirectory sys.d.dataDir = false
            then "Cannot write data location: " ++ sys.d.dataDir
            else "Cannot write data files: " ++ makePath sys.d.dataDir "default_torrc")
    ∧ (start w sys).2.events = sys.events ++
        (if w.rsEvents then
          [{ mTorManagerEventType := .TOR_MANAGER_ERROR
             mErrorMessage :=
              (if sys.fs.checkCreateDirectory sys.d.dataDir = false
                then "Cannot write data location: " ++ sys.d.dataDir
                else "Cannot write data files: " ++ makePath sys.d.dataDir "default_torrc") }]
         else [])
    ∧ configurationNeeded (start w sys).2 = configurationNeeded sys
    ∧ childStarts (start w sys).2 = childStarts sys := by
  obtain ⟨⟨process, control, dataDir, hsd, logs, err, cn, hs⟩, fs, events⟩ := sys
  dsimp only at h
  have hexe := torExecutablePath_ne_empty w fs
  by_cases hdir : fs.checkCreateDirectory dataDir = true
  · rcases h with h | ⟨hex, hwr⟩
    · rw [hdir] at h; exact absurd h (by decide)
    · by_cases herr : err = "" <;> cases process <;> by_cases hev : w.rsEvents = true <;>
        simp [start, hexe, hdir, hex, hwr, herr, hev, setError, sendEvent, errorMessage,
          configurationNeeded, childStarts, createDefaultTorrc]
  · by_cases herr : err = "" <;> cases process <;> by_cases hev : w.rsEvents = true <;>
      simp [start, hexe, hdir, herr, hev, setError, sendEvent, errorMessage,
        configurationNeeded, childStarts]

/-- C9 (amended): if the Tor binary exists at none of the locations probed by
`torExecutablePath`, that function returns the bare file name (`"tor"`, to be
looked up in `$PATH`), never the empty string, so `isTorAvailable()` is true
and `start()` does not fail on the executable: it returns true exactly when the
data directory and `default_torrc` checks pass, then leaves no error and starts
the child with the bare name; when it returns false the error is one of the two
"Cannot write ..." messages. -/
theorem C9_missing_binary_falls_back (w : World) (sys : System)
    (h : ∀ p ∈ torSearchLocations w, fileExists sys.fs p = false) :
    torExecutablePath w sys.fs = (torFilename w).drop 1
    ∧ torExecutablePath w sys.fs ≠ ""
    ∧ isTorAvailable w sys = true
    ∧ ((start w sys).1 = true ↔
        (sys.fs.checkCreateDirectory sys.d.dataDir = true
          ∧ (fileExists sys.fs (makePath sys.d.dataDir "default_torrc") = true
              ∨ sys.fs.canOpenForWriting (makePath sys.d.dataDir "default_torrc") = true)))
    ∧ ((start w sys).1 = true →
        hasError (start w sys).2 = false
        ∧ childStarts (start w sys).2 = childStarts sys + 1
        ∧ (start w sys).2.d.process.map (fun p => p.executable)
            = some ((torFilename w).drop 1))
    ∧ ((start w sys).1 = false →
        errorMessage (start w sys).2 = "Cannot write data location: " ++ sys.d.dataDir
        ∨ errorMessage (start w sys).2
            = "Cannot write data files: " ++ makePath sys.d.dataDir "default_torrc") := by
  have hpath := torExecutablePath_of_not_found w sys.fs h
  have hne := torExecutablePath_ne_empty w sys.fs
  refine ⟨hpath, hne, ?_, start_true_iff w sys, ?_, ?_⟩
  · simp [isTorAvailable, hne]
  · intro hs
    obtain ⟨he, hc, hp⟩ := start_success w sys hs
    refine ⟨?_, hc, ?_⟩
    · unfold hasError; unfold errorMessage at he; rw [he]; decide
    · rw [hp, hpath]
  · intro hs
    have hnot : ¬ (start w sys).1 = true := by rw [hs]; decide
    rw [start_true_iff] at hnot
    have hcase : sys.fs.checkCreateDirectory sys.d.dataDir = false
        ∨ (fileExists sys.fs (makePath sys.d.dataDir "default_torrc") = false
            ∧ sys.fs.canOpenForWriting (makePath sys.d.dataDir "default_torrc") = false) := by
      by_cases hdir : sys.fs.checkCreateDirectory sys.d.dataDir = true
      · right
        constructor
        · by_contra hc
          exact hnot ⟨hdir, Or.inl (by simpa using hc)⟩
        · by_contra hc
          exact hnot ⟨hdir, Or.inr (by simpa using hc)⟩
      · left; simpa using hdir
    obtain ⟨_, hmsg, _⟩ := start_unwritable w sys hcase
    rw [hmsg]
    split_ifs
    · left; rfl
    · right; rfl

/-- The amended C9 in a concrete run: no Tor binary anywhere, writable data
directory. -/
theorem C9_missing_binary_falls_back_witness :
    torExecutablePath (sampleWorld true) (sampleSystem (sampleFs [] true)).fs = "tor"
    ∧ isTorAvailable (sampleWorld true) (sampleSystem (sampleFs [] true)) = true :=
  ⟨(C9_missing_binary_falls_back (sampleWorld true) (sampleSystem (sampleFs [] true))
      (by decide)).1,
   (C9_missing_binary_falls_back (sampleWorld true) (sampleSystem (sampleFs [] true))
      (by decide)).2.2.1⟩

/-- C9 as stated fails: with the Tor binary at none of the probed locations,
`start()` returns true, leaves no error and starts the child process with the
executable `"tor"`. -/
theorem C9_counterexample :
    (∀ p ∈ torSearchLocations (sampleWorld true),
        fileExists (sampleSystem (sampleFs [] true)).fs p = false)
    ∧ (start (sampleWorld true) (sampleSystem (sampleFs [] true))).1 = true
    ∧ errorMessage (start (sampleWorld true) (sampleSystem (sampleFs [] true))).2 = ""
    ∧ hasError (start (sampleWorld true) (sampleSystem (sampleFs [] true))).2 = false
    ∧ childStarts (start (sampleWorld true) (sampleSystem (sampleFs [] true))).2 = 1
    ∧ (start (sampleWorld true) (sampleSystem (sampleFs [] true))).2.d.process.map
        (fun p => p.executable) = some "tor" := by
  decide

/-- C10 (amended): if the data directory cannot be created, or `default_torrc`
is missing and cannot be written, `start()` returns false, leaves the non-empty
error message naming the path, runs the error-event block (which sends one
`TOR_MANAGER_ERROR` event carrying that message when `rsEvents` is set and
nothing when it is null), and neither changes `configNeeded` nor starts the
child process. -/
theorem C10_unwritable_data_location (w : World) (sys : System)
    (h : sys.fs.checkCreateDirectory sys.d.dataDir = false
      ∨ (fileExists sys.fs (makePath sys.d.dataDir "default_torrc") = false
          ∧ sys.fs.canOpenForWriting (makePath sys.d.dataDir "default_torrc") = false)) :
    (start w sys).1 = false
    ∧ errorMessage (start w sys).2
        = (if sys.fs.checkCreateDirectory sys.d.dataDir = false
            then "Cannot write data location: " ++ sys.d.dataDir
            else "Cannot write data files: " ++ makePath sys.d.dataDir "default_torrc")
    ∧ hasError (start w sys).2 = true
    ∧ (start w sys).2.events = sys.events ++
        (if w.rsEvents then
          [{ mTorManagerEventType := .TOR_MANAGER_ERROR
             mErrorMessage := errorMessage (start w sys).2 }]
         else [])
    ∧ configurationNeeded (start w sys).2 = configurationNeeded sys
    ∧ childStarts (start w sys).2 = childStarts sys := by
  obtain ⟨hr, hmsg, hev, hcn, hch⟩ := start_unwritable w sys h
  refine ⟨hr, hmsg, ?_, ?_, hcn, hch⟩
  · unfold hasError
    unfold errorMessage at hmsg
    rw [hmsg]
    have h1 : "Cannot write data location: " ++ sys.d.dataDir ≠ "" :=
      append_ne_empty _ _ (by decide)
    have h2 : "Cannot write data files: " ++ makePath sys.d.dataDir "default_torrc" ≠ "" :=
      append_ne_empty _ _ (by decide)
    split_ifs <;> simp [h1, h2]
  · rw [hev, hmsg]

/-- The amended C10 in a concrete run: event service present, nothing
writable. -/
theorem C10_unwritable_data_location_witness :
    (start (sampleWorld true) (sampleSystem (sampleFs [] false))).1 = false
    ∧ hasError (start (sampleWorld true) (sampleSystem (sampleFs [] false))).2 = true :=
  ⟨(C10_unwritable_data_location (sampleWorld true) (sampleSystem (sampleFs [] false))
      (Or.inl (by decide))).1,
   (C10_unwritable_data_location (sampleWorld true) (sampleSystem (sampleFs [] false))
      (Or.inl (by decide))).2.2.1⟩

/-- C10 as stated fails when the event service is absent (`rsEvents` null):
the data directory cannot be created, `start()` returns false with the error
message set, but no `TOR_MANAGER_ERROR` event is sent. -/
theorem C10_counterexample :
    (sampleSystem (sampleFs [] false)).fs.checkCreateDirectory
        (sampleSystem (sampleFs [] false)).d.dataDir = false
    ∧ (start (sampleWorld false) (sampleSystem (sampleFs [] false))).1 = false
    ∧ errorMessage (start (sampleWorld false) (sampleSystem (sampleFs [] false))).2
        = "Cannot write data location: /data/tor/"
    ∧ (start (sampleWorld false) (sampleSystem (sampleFs [] false))).2.events = [] := by
  decide

end Tor

/-! ## Properties of the hidden-service setup and of the persisted files -/

namespace Tor

/-- With a service already set, `setupHiddenService` returns true and changes
nothing (lines 153-157). -/
theorem setupHiddenService_of_some (sys : System) (service : HiddenService)
    (h : sys.d.hiddenService = some service) : setupHiddenService sys = (true, sys) := by
  unfold setupHiddenService
  rw [h]

/-- C11: in `setupHiddenService` with a non-empty hidden-service directory, no
service yet and an existing `private_key` file: if `CryptoKey::loadFromFile`
fails the call returns false and changes nothing (the service stays null,
nothing is handed to the control); if it loads a key the call returns true and
the service stored and handed to the control is the one constructed with that
key (plus the target added on line 220). -/
theorem C11_setup_with_existing_key (sys : System)
    (hnone : sys.d.hiddenService = none) (hdir : sys.d.hiddenServiceDir ≠ "")
    (hexists : fileExists sys.fs (makePath sys.d.hiddenServiceDir "/private_key") = true) :
    (sys.fs.loadFromFile (makePath sys.d.hiddenServiceDir "/private_key") = none →
        (setupHiddenService sys).1 = false
        ∧ (setupHiddenService sys).2.d.hiddenService = none
        ∧ addedHiddenServices (setupHiddenService sys).2 = addedHiddenServices sys
        ∧ (setupHiddenService sys).2.d.control.calls = sys.d.control.calls)
    ∧ (∀ key, sys.fs.loadFromFile (makePath sys.d.hiddenServiceDir "/private_key") = some key →
        (setupHiddenService sys).1 = true
        ∧ ∃ service, service.privateKey = key
            ∧ service = (HiddenService.withKey key sys.d.hiddenServiceDir).addTarget
                9878 "127.0.0.1" 7934
            ∧ (setupHiddenService sys).2.d.hiddenService = some service
            ∧ (setupHiddenService sys).2.d.control.calls
                = sys.d.control.calls ++ [ControlCall.addHiddenService service]
            ∧ addedHiddenServices (setupHiddenService sys).2
                = addedHiddenServices sys ++ [service]) := by
  constructor
  · intro hload
    have e : setupHiddenService sys = (false, sys) := by
      unfold setupHiddenService
      rw [hnone]
      simp [hdir, hexists, hload]
    rw [e]
    exact ⟨rfl, hnone, rfl, rfl⟩
  · intro key hload
    have e : setupHiddenService sys
        = (true, { sys with d := { sys.d with
            hiddenService := some ((HiddenService.withKey key sys.d.hiddenServiceDir).addTarget
              9878 "127.0.0.1" 7934)
            control := { calls := sys.d.control.calls ++ [ControlCall.addHiddenService
              ((HiddenService.withKey key sys.d.hiddenServiceDir).addTarget
                9878 "127.0.0.1" 7934)] } } }) := by
      unfold setupHiddenService
      rw [hnone]
      simp [hdir, hexists, hload]
    rw [e]
    refine ⟨rfl, _, ?_, rfl, rfl, rfl, ?_⟩
    · rfl
    · simp [addedHiddenServices, List.filterMap_append]

/-- C11 in two concrete runs: a `private_key` file that does not load, and one
that loads. -/
theorem C11_setup_with_existing_key_witness :
    ((setupHiddenService (sampleHsSystem [("/data/hs//private_key", "garbage")])).1 = false
      ∧ (setupHiddenService
          (sampleHsSystem [("/data/hs//private_key", "garbage")])).2.d.hiddenService = none)
    ∧ (setupHiddenService
        (sampleHsSystem [("/data/hs//private_key", "ED25519-V3:abcd")])).1 = true :=
  ⟨⟨((C11_setup_with_existing_key (sampleHsSystem [("/data/hs//private_key", "garbage")])
        (by decide) (by decide) (by decide)).1 (by decide)).1,
    ((C11_setup_with_existing_key (sampleHsSystem [("/data/hs//private_key", "garbage")])
        (by decide) (by decide) (by decide)).1 (by decide)).2.1⟩,
   ((C11_setup_with_existing_key
        (sampleHsSystem [("/data/hs//private_key", "ED25519-V3:abcd")])
        (by decide) (by decide) (by decide)).2 { bytes := "ED25519-V3:abcd" } (by decide)).1⟩

end Tor

namespace Tor

/-- Repeating `setupHiddenService` on a system that has a service changes
nothing. -/
theorem setupHiddenServiceTimes_of_some (n : Nat) (sys : System) (service : HiddenService)
    (h : sys.d.hiddenService = some service) : setupHiddenServiceTimes n sys = sys := by
  induction n with
  | zero => rfl
  | succ k ih =>
    unfold setupHiddenServiceTimes
    rw [setupHiddenService_of_some sys service h]
    exact ih

/-- A first successful `setupHiddenService` stores a service with the single
target of line 220 and hands exactly that service to the control. -/
theorem setupHiddenService_first (sys : System) (hnone : sys.d.hiddenService = none)
    (hfirst : (setupHiddenService sys).1 = true) :
    ∃ service, (setupHiddenService sys).2.d.hiddenService = some service
      ∧ service.targets
          = [{ servicePort := 9878, targetAddress := "127.0.0.1", targetPort := 7934 }]
      ∧ addedHiddenServices (setupHiddenService sys).2 = addedHiddenServices sys ++ [service] := by
  unfold setupHiddenService at hfirst ⊢
  rw [hnone] at hfirst ⊢
  dsimp only at hfirst ⊢
  by_cases hdir : sys.d.hiddenServiceDir = ""
  · simp [hdir] at hfirst
  · rw [if_neg hdir] at hfirst ⊢
    by_cases hex : fileExists sys.fs (makePath sys.d.hiddenServiceDir "/private_key") = true
    · cases hload : sys.fs.loadFromFile (makePath sys.d.hiddenServiceDir "/private_key") with
      | none => simp [hdir, hex, hload] at hfirst
      | some key =>
        simp [hdir, hex, hload, addedHiddenServices, List.filterMap_append,
          HiddenService.withKey, HiddenService.addTarget]
    · simp [hdir, hex, addedHiddenServices, List.filterMap_append,
        HiddenService.create, HiddenService.addTarget]

/-- C18: once a service exists `setupHiddenService` returns true and changes
nothing; so when the first call on a manager without service succeeds, after
any number `n + 1` of calls the service is the one of the first call, it has
exactly the one target 9878 -> 127.0.0.1:7934, and it has been handed to the
control exactly once. -/
theorem C18_setup_idempotent (sys : System) (n : Nat)
    (hnone : sys.d.hiddenService = none) (hfirst : (setupHiddenService sys).1 = true) :
    (∀ (later : System) (service : HiddenService), later.d.hiddenService = some service →
        setupHiddenService later = (true, later))
    ∧ setupHiddenService (setupHiddenService sys).2 = (true, (setupHiddenService sys).2)
    ∧ setupHiddenServiceTimes (n + 1) sys = (setupHiddenService sys).2
    ∧ ∃ service, (setupHiddenServiceTimes (n + 1) sys).d.hiddenService = some service
        ∧ service.targets
            = [{ servicePort := 9878, targetAddress := "127.0.0.1", targetPort := 7934 }]
        ∧ addedHiddenServices (setupHiddenServiceTimes (n + 1) sys)
            = addedHiddenServices sys ++ [service] := by
  obtain ⟨service, hsome, htargets, hadded⟩ := setupHiddenService_first sys hnone hfirst
  have htimes : setupHiddenServiceTimes (n + 1) sys = (setupHiddenService sys).2 := by
    show setupHiddenServiceTimes n (setupHiddenService sys).2 = (setupHiddenService sys).2
    exact setupHiddenServiceTimes_of_some n _ service hsome
  refine ⟨fun later s h => setupHiddenService_of_some later s h,
    setupHiddenService_of_some _ service hsome, htimes, service, ?_, htargets, ?_⟩
  · rw [htimes]; exact hsome
  · rw [htimes]; exact hadded

/-- C18 in a concrete run: three calls on a manager with an empty
hidden-service directory on disk. -/
theorem C18_setup_idempotent_witness :
    (setupHiddenServiceTimes 3 (sampleHsSystem [])).d.hiddenService
        = some { dataPath := "/data/hs/", privateKey := {}
                 targets := [{ servicePort := 9878, targetAddress := "127.0.0.1"
                               targetPort := 7934 }] }
    ∧ (addedHiddenServices (setupHiddenServiceTimes 3 (sampleHsSystem []))).length = 1 := by
  have h := C18_setup_idempotent (sampleHsSystem []) 2 (by decide) (by decide)
  rw [h.2.2.1]
  decide

/-- C12: `createDefaultTorrc` succeeds exactly when the file can be opened for
writing and then leaves at the path exactly the text
`SocksPort auto`, `AvoidDiskWrites 1`, `__ReloadTorrcOnSIGHUP 0` (one per
line), touching no other file and nothing at all when it fails; and `start()`
changes the file system only by calling it on `<dataDir>/default_torrc` when
the data directory is available and that file does not exist, so an existing
`default_torrc` is left unchanged. -/
theorem C12_default_torrc (w : World) (sys : System) (fs : FileSystem) (path : String) :
    defaultTorrcContent = "SocksPort auto\nAvoidDiskWrites 1\n__ReloadTorrcOnSIGHUP 0\n"
    ∧ (createDefaultTorrc fs path).1 = fs.canOpenForWriting path
    ∧ ((createDefaultTorrc fs path).1 = true →
        (createDefaultTorrc fs path).2.files path
          = some "SocksPort auto\nAvoidDiskWrites 1\n__ReloadTorrcOnSIGHUP 0\n")
    ∧ (∀ p, p ≠ path → (createDefaultTorrc fs path).2.files p = fs.files p)
    ∧ ((createDefaultTorrc fs path).1 = false → (createDefaultTorrc fs path).2.files = fs.files)
    ∧ (fileExists sys.fs (makePath sys.d.dataDir "default_torrc") = true →
        (start w sys).2.fs.files = sys.fs.files)
    ∧ (start w sys).2.fs.files
        = (if sys.fs.checkCreateDirectory sys.d.dataDir = true
              ∧ fileExists sys.fs (makePath sys.d.dataDir "default_torrc") = false
           then (createDefaultTorrc sys.fs (makePath sys.d.dataDir "default_torrc")).2.files
           else sys.fs.files) := by
  have hstart : (start w sys).2.fs.files
        = (if sys.fs.checkCreateDirectory sys.d.dataDir = true
              ∧ fileExists sys.fs (makePath sys.d.dataDir "default_torrc") = false
           then (createDefaultTorrc sys.fs (makePath sys.d.dataDir "default_torrc")).2.files
           else sys.fs.files) := by
    obtain ⟨⟨process, control, dataDir, hsd, logs, err, cn, hs⟩, fs0, events⟩ := sys
    have hexe := torExecutablePath_ne_empty w fs0
    by_cases hdir : fs0.checkCreateDirectory dataDir = true <;>
    by_cases hex : fileExists fs0 (makePath dataDir "default_torrc") = true <;>
    by_cases hwr : fs0.canOpenForWriting (makePath dataDir "default_torrc") = true <;>
    by_cases herr : err = "" <;> cases process <;> by_cases hev : w.rsEvents = true <;>
      simp [start, hexe, hdir, hex, hwr, herr, hev, createDefaultTorrc, setError, sendEvent,
        apply_ite]
  refine ⟨rfl, ?_, ?_, ?_, ?_, ?_, hstart⟩
  · unfold createDefaultTorrc
    by_cases h : fs.canOpenForWriting path = true <;> simp [h]
  · intro h
    unfold createDefaultTorrc at h ⊢
    by_cases hc : fs.canOpenForWriting path = true
    · simp [hc, defaultTorrcContent]
    · simp [hc] at h
  · intro p hp
    unfold createDefaultTorrc
    by_cases hc : fs.canOpenForWriting path = true <;> simp [hc, hp]
  · intro h
    unfold createDefaultTorrc at h ⊢
    by_cases hc : fs.canOpenForWriting path = true
    · simp [hc] at h
    · simp [hc]
  · intro hex
    rw [hstart, if_neg]
    rw [hex]
    simp

end Tor

namespace Tor

/-- The two file-system states of `hiddenServicePrivateKeyChanged` when the
service exists and the file can be opened. -/
theorem hiddenServicePrivateKeyChangedTrace_of_open (sys : System) (service : HiddenService)
    (hservice : sys.d.hiddenService = some service)
    (hopen : sys.fs.canOpenForWriting (sys.d.hiddenServiceDir ++ "/private_key") = true) :
    (hiddenServicePrivateKeyChangedTrace sys).map
        (fun fs => fs.files (sys.d.hiddenServiceDir ++ "/private_key"))
      = [some "", some service.privateKey.bytes]
    ∧ ∀ fs ∈ hiddenServicePrivateKeyChangedTrace sys, ∀ p,
        p ≠ sys.d.hiddenServiceDir ++ "/private_key" → fs.files p = sys.fs.files p := by
  unfold hiddenServicePrivateKeyChangedTrace
  rw [hservice]
  dsimp only
  rw [if_pos hopen]
  constructor
  · simp
  · intro fs hfs p hp
    simp only [List.mem_cons, List.mem_singleton, List.not_mem_nil, or_false] at hfs
    rcases hfs with rfl | rfl <;> simp [hp]

/-- What `hiddenServicePrivateKeyChanged` leaves in the file system. -/
theorem hiddenServicePrivateKeyChanged_files (sys : System) (service : HiddenService)
    (hservice : sys.d.hiddenService = some service) :
    (sys.fs.canOpenForWriting (sys.d.hiddenServiceDir ++ "/private_key") = true →
        (hiddenServicePrivateKeyChanged sys).fs.files (sys.d.hiddenServiceDir ++ "/private_key")
          = some service.privateKey.bytes)
    ∧ (sys.fs.canOpenForWriting (sys.d.hiddenServiceDir ++ "/private_key") = false →
        (hiddenServicePrivateKeyChanged sys).fs.files = sys.fs.files)
    ∧ (∀ p, p ≠ sys.d.hiddenServiceDir ++ "/private_key" →
        (hiddenServicePrivateKeyChanged sys).fs.files p = sys.fs.files p) := by
  unfold hiddenServicePrivateKeyChanged hiddenServicePrivateKeyChangedTrace
  rw [hservice]
  dsimp only
  by_cases hopen : sys.fs.canOpenForWriting (sys.d.hiddenServiceDir ++ "/private_key") = true
  · simp [hopen]
    intro p hp
    simp [hp]
  · simp [hopen]

/-- C13 (amended): for every key held by the hidden service,
`hiddenServicePrivateKeyChanged` leaves in `<hiddenServiceDir>/private_key`
exactly the key's canonical bytes: no PEM envelope and no line terminator is
added (the file ends with a line feed only if the bytes do). When the file
cannot be opened nothing is written, and no other file is touched. -/
theorem C13_private_key_written_verbatim (sys : System) (service : HiddenService)
    (hservice : sys.d.hiddenService = some service) :
    (sys.fs.canOpenForWriting (sys.d.hiddenServiceDir ++ "/private_key") = true →
        (hiddenServicePrivateKeyChanged sys).fs.files (sys.d.hiddenServiceDir ++ "/private_key")
          = some service.privateKey.bytes)
    ∧ (sys.fs.canOpenForWriting (sys.d.hiddenServiceDir ++ "/private_key") = false →
        (hiddenServicePrivateKeyChanged sys).fs.files = sys.fs.files)
    ∧ (∀ p, p ≠ sys.d.hiddenServiceDir ++ "/private_key" →
        (hiddenServicePrivateKeyChanged sys).fs.files p = sys.fs.files p) :=
  hiddenServicePrivateKeyChanged_files sys service hservice

/-- The amended C13 in a concrete run: the key `ED25519-V3:abcd` replaces the
content of an existing `private_key`. -/
theorem C13_private_key_written_verbatim_witness :
    (hiddenServicePrivateKeyChanged
        (sampleKeyedSystem [("/data/hs//private_key", "OLD")] "ED25519-V3:abcd")).fs.files
        ((sampleKeyedSystem [("/data/hs//private_key", "OLD")]
            "ED25519-V3:abcd").d.hiddenServiceDir ++ "/private_key")
      = some "ED25519-V3:abcd" :=
  (C13_private_key_written_verbatim
      (sampleKeyedSystem [("/data/hs//private_key", "OLD")] "ED25519-V3:abcd") _ rfl).1
    (by decide)

/-- C13 as stated fails: for the key with canonical bytes `ED25519-V3:abcd`
the written file is `ED25519-V3:abcd`, whose last character is `d`, not a
line feed. -/
theorem C13_counterexample :
    (hiddenServicePrivateKeyChanged
        (sampleKeyedSystem [] "ED25519-V3:abcd")).fs.files "/data/hs//private_key"
      = some "ED25519-V3:abcd"
    ∧ "ED25519-V3:abcd".back = 'd'
    ∧ "ED25519-V3:abcd".back ≠ '\n' := by
  decide

/-- C14 (amended): `hiddenServicePrivateKeyChanged` writes the key in place.
It opens `<hiddenServiceDir>/private_key` itself for writing, which empties
it, then writes the key bytes into it; no other path (no temporary file) is
created or changed at any step and nothing is renamed. So the file holds, in
turn, the prior content (before the call), nothing (after the open), and the
complete new content (after the write, which is the state the call ends in). -/
theorem C14_private_key_written_in_place (sys : System) (service : HiddenService)
    (hservice : sys.d.hiddenService = some service)
    (hopen : sys.fs.canOpenForWriting (sys.d.hiddenServiceDir ++ "/private_key") = true) :
    (hiddenServicePrivateKeyChangedTrace sys).map
        (fun fs => fs.files (sys.d.hiddenServiceDir ++ "/private_key"))
      = [some "", some service.privateKey.bytes]
    ∧ (∀ fs ∈ hiddenServicePrivateKeyChangedTrace sys, ∀ p,
        p ≠ sys.d.hiddenServiceDir ++ "/private_key" → fs.files p = sys.fs.files p)
    ∧ (hiddenServicePrivateKeyChanged sys).fs.files (sys.d.hiddenServiceDir ++ "/private_key")
        = some service.privateKey.bytes := by
  obtain ⟨h1, h2⟩ := hiddenServicePrivateKeyChangedTrace_of_open sys service hservice hopen
  exact ⟨h1, h2, (hiddenServicePrivateKeyChanged_files sys service hservice).1 hopen⟩

end Tor

namespace Tor

/-- The amended C14 in a concrete run: prior content `OLD-KEY`, new key
`NEW-KEY`. -/
theorem C14_private_key_written_in_place_witness :
    (hiddenServicePrivateKeyChangedTrace
        (sampleKeyedSystem [("/data/hs//private_key", "OLD-KEY")] "NEW-KEY")).map
        (fun fs => fs.files
          ((sampleKeyedSystem [("/data/hs//private_key", "OLD-KEY")]
              "NEW-KEY").d.hiddenServiceDir ++ "/private_key"))
      = [some "", some "NEW-KEY"] :=
  (C14_private_key_written_in_place
      (sampleKeyedSystem [("/data/hs//private_key", "OLD-KEY")] "NEW-KEY") _ rfl
      (by decide)).1

/-- C14 as stated fails: with the prior content `OLD-KEY` and the new key
`NEW-KEY`, the state after the file is opened and before the key is written
holds an empty `private_key`, which is neither the complete prior content nor
the complete new content. -/
theorem C14_counterexample :
    (sampleKeyedSystem [("/data/hs//private_key", "OLD-KEY")] "NEW-KEY").fs.files
        "/data/hs//private_key" = some "OLD-KEY"
    ∧ ((hiddenServicePrivateKeyChangedTrace
          (sampleKeyedSystem [("/data/hs//private_key", "OLD-KEY")] "NEW-KEY")).map
          (fun fs => fs.files "/data/hs//private_key")) = [some "", some "NEW-KEY"]
    ∧ (∃ fs ∈ hiddenServicePrivateKeyChangedTrace
          (sampleKeyedSystem [("/data/hs//private_key", "OLD-KEY")] "NEW-KEY"),
        fs.files "/data/hs//private_key" ≠ some "OLD-KEY"
        ∧ fs.files "/data/hs//private_key" ≠ some "NEW-KEY") := by
  refine ⟨by decide, by decide, ?_⟩
  refine ⟨_, List.mem_cons_self _ _, ?_, ?_⟩ <;> decide

end Tor

/-! ## Bounds, monotonicity and guards of the request delay -/

namespace FriendServerManager

/-- The delay of line 100 with the exponent written as
`log 3600 - (1 + log 3600) * s`. -/
theorem delay_for_request_eq (f W : Nat) :
    delay_for_request f W
      = 30 + ⌊Real.exp (Real.log 3600 - (1 + Real.log 3600) * smoothing f W)⌋ := by
  unfold delay_for_request
  have e : (-1 * smoothing f W
      + Real.log ((MAX_DELAY_BETWEEN_FS_REQUESTS : Int) : ℝ) * (1.0 - smoothing f W))
      = Real.log 3600 - (1 + Real.log 3600) * smoothing f W := by
    simp only [MAX_DELAY_BETWEEN_FS_REQUESTS]
    push_cast
    ring
  rw [e]
  rfl

end FriendServerManager

namespace FriendServerManager

/-- C17: a tick in which the server address is empty, or `W = 0`, or `f > W`
performs no request, adds no friend and leaves the manager (so `lastCampaign`)
unchanged; and whenever a tick evaluates the subtraction `W - f` and the
division by `W` of line 99, it does so with `W ≥ 1` and `f < W`, `W` being
`mFriendsToRequest` and `f` the number of friends. -/
theorem C17_guards (env : Env) (st : State) :
    ((st.mServerAddress = "" ∨ st.mFriendsToRequest = 0
        ∨ st.mFriendsToRequest < env.getPgpFriendList.length) →
        (threadTick env st).2.requests = []
        ∧ (threadTick env st).2.added = []
        ∧ (threadTick env st).1 = st
        ∧ (threadTick env st).1.mLastFriendReqestCampain = st.mLastFriendReqestCampain
        ∧ delayLineOperands env st = none)
    ∧ (∀ W f, delayLineOperands env st = some (W, f) →
        1 ≤ W ∧ f < W ∧ W = st.mFriendsToRequest ∧ f = env.getPgpFriendList.length
        ∧ st.mServerAddress ≠ "") := by
  constructor
  · intro h
    have e : threadTick env st = (st, { requests := [], added := [] }) := by
      unfold threadTick threadTickWith
      by_cases haddr : st.mServerAddress = ""
      · rw [if_pos haddr]
      · rw [if_neg haddr]
        have hg : st.mFriendsToRequest = 0
            ∨ st.mFriendsToRequest < env.getPgpFriendList.length := by
          rcases h with h | h | h
          · exact absurd h haddr
          · exact Or.inl h
          · exact Or.inr h
        simp only [if_pos hg]
    have e2 : delayLineOperands env st = none := by
      unfold delayLineOperands
      by_cases haddr : st.mServerAddress = ""
      · rw [if_pos haddr]
      · rw [if_neg haddr]
        have hg : st.mFriendsToRequest = 0
            ∨ st.mFriendsToRequest < env.getPgpFriendList.length := by
          rcases h with h | h | h
          · exact absurd h haddr
          · exact Or.inl h
          · exact Or.inr h
        simp only [if_pos hg]
    rw [e]
    exact ⟨rfl, rfl, rfl, rfl, e2⟩
  · intro W f h
    unfold delayLineOperands at h
    by_cases haddr : st.mServerAddress = ""
    · rw [if_pos haddr] at h; exact absurd h (by simp)
    · rw [if_neg haddr] at h
      dsimp only at h
      by_cases hg : st.mFriendsToRequest = 0
          ∨ st.mFriendsToRequest < env.getPgpFriendList.length
      · rw [if_pos hg] at h; exact absurd h (by simp)
      · rw [if_neg hg] at h
        by_cases hlt : env.getPgpFriendList.length < st.mFriendsToRequest
        · rw [if_pos hlt] at h
          simp only [Option.some.injEq, Prod.mk.injEq] at h
          obtain ⟨h1, h2⟩ := h
          subst h1; subst h2
          exact ⟨by omega, hlt, rfl, rfl, haddr⟩
        · rw [if_neg hlt] at h; exact absurd h (by simp)

end FriendServerManager

/-! ## Properties of `socketbio.cc` -/

namespace FsBioInterface

theorem toNat_cast_sub (a b : Nat) : ((a : Int) - (b : Int)).toNat = a - b := by
  omega

/-- What the loop of `readdata` does when entered with `0 ≤ total_len ≤ len`:
with `S` the concatenation of the blocks, it returns
`n = min len (total_len + |S|)`, leaves the blocks holding `S` without its
first `n - total_len` bytes, has copied these bytes to the positions
`total_len .. n - 1` of the caller's buffer and nothing else, and has taken
`n` off the byte counter. -/
theorem readdataLoop_spec (ln : Nat) (buf : List (List Byte)) :
    ∀ (tn : Nat) (data : Nat → Byte) (c : Int), tn ≤ ln →
      (readdataLoop ln buf tn data c).ret = ((min ln (tn + buf.flatten.length) : Nat) : Int)
      ∧ (readdataLoop ln buf tn data c).in_buffer.flatten
          = buf.flatten.drop (min ln (tn + buf.flatten.length) - tn)
      ∧ (∀ i, (readdataLoop ln buf tn data c).data i
          = if tn ≤ i ∧ i < min ln (tn + buf.flatten.length)
            then buf.flatten.getD (i - tn) 0 else data i)
      ∧ (readdataLoop ln buf tn data c).mTotalInBufferBytes
          = c - ((min ln (tn + buf.flatten.length) : Nat) : Int)
      ∧ ((∀ ch ∈ buf, ch ≠ []) → ∀ ch ∈ (readdataLoop ln buf tn data c).in_buffer, ch ≠ []) := by
  induction buf with
  | nil =>
    intro tn data c h
    have hmin : min ln (tn + ([] : List (List Byte)).flatten.length) = tn := by
      simp only [List.flatten_nil, List.length_nil, Nat.add_zero]; omega
    rw [hmin]
    unfold readdataLoop
    by_cases hlt : (tn : Int) < (ln : Int)
    · rw [if_pos hlt]
      refine ⟨rfl, by simp, ?_, rfl, by simp⟩
      intro i
      have : ¬ (tn ≤ i ∧ i < tn) := by omega
      rw [if_neg this]
    · rw [if_neg hlt]
      have hEq : ln = tn := by omega
      subst hEq
      refine ⟨rfl, by simp, ?_, rfl, by simp⟩
      intro i
      have : ¬ (ln ≤ i ∧ i < ln) := by omega
      rw [if_neg this]
  | cons front rest ih =>
    intro tn data c h
    have hflat : (front :: rest).flatten = front ++ rest.flatten := List.flatten_cons
    have hlen : (front :: rest).flatten.length = front.length + rest.flatten.length := by
      rw [hflat, List.length_append]
    rw [hflat]
    simp only [List.length_append]
    unfold readdataLoop
    by_cases hlt : (tn : Int) < (ln : Int)
    · rw [if_pos hlt]
      by_cases hbig : (tn : Int) + (front.length : Int) > (ln : Int)
      · rw [if_pos hbig]
        have hmin : min ln (tn + (front.length + rest.flatten.length)) = ln := by omega
        rw [hmin]
        have hd : ((ln : Int) - (tn : Int)).toNat = ln - tn := toNat_cast_sub ln tn
        have htn : ((tn : Nat) : Int).toNat = tn := Int.toNat_ofNat tn
        refine ⟨rfl, ?_, ?_, rfl, ?_⟩
        · show (front.drop ((ln : Int) - (tn : Int)).toNat :: rest).flatten = _
          rw [hd, List.flatten_cons, List.drop_append_of_le_length (by omega)]
        · intro i
          show memcpy data ((tn : Nat) : Int).toNat front ((ln : Int) - (tn : Int)).toNat i = _
          rw [hd, htn]
          unfold memcpy
          by_cases hi : tn ≤ i ∧ i < ln
          · have hi2 : tn ≤ i ∧ i < tn + (ln - tn) := by omega
            rw [if_pos hi, if_pos hi2]
            have hlt2 : i - tn < front.length := by omega
            rw [List.getD_eq_getElem _ _ hlt2,
              List.getD_eq_getElem _ _ (by rw [List.length_append]; omega),
              List.getElem_append_left hlt2]
          · have hi2 : ¬ (tn ≤ i ∧ i < tn + (ln - tn)) := by omega
            rw [if_neg hi, if_neg hi2]
        · intro hne ch hch
          have hch2 : ch ∈ front.drop ((ln : Int) - (tn : Int)).toNat :: rest := hch
          rw [hd] at hch2
          rcases List.mem_cons.mp hch2 with rfl | hr
          · intro hnil
            have := congrArg List.length hnil
            simp only [List.length_drop, List.length_nil] at this
            omega
          · exact hne ch (List.mem_cons_of_mem _ hr)
      · rw [if_neg hbig]
        have hle : tn + front.length ≤ ln := by omega
        have hcast : (tn : Int) + (front.length : Int) = ((tn + front.length : Nat) : Int) := by
          push_cast; rfl
        rw [hcast]
        obtain ⟨h1, h2, h3, h4, h5⟩ :=
          ih (tn + front.length) (memcpy data ((tn : Nat) : Int).toNat front front.length) c hle
        have hassoc : tn + front.length + rest.flatten.length
            = tn + (front.length + rest.flatten.length) := by omega
        rw [hassoc] at h1 h2 h3 h4
        refine ⟨h1, ?_, ?_, h4, ?_⟩
        · rw [h2]
          have hsplit : min ln (tn + (front.length + rest.flatten.length)) - tn
              = front.length + (min ln (tn + (front.length + rest.flatten.length))
                  - (tn + front.length)) := by omega
          rw [hsplit, ← List.drop_drop, List.drop_left]
        · intro i
          rw [h3 i]
          have htn : ((tn : Nat) : Int).toNat = tn := Int.toNat_ofNat tn
          rw [htn]
          unfold memcpy
          by_cases hi : tn + front.length ≤ i
              ∧ i < min ln (tn + (front.length + rest.flatten.length))
          · have hi2 : tn ≤ i ∧ i < min ln (tn + (front.length + rest.flatten.length)) := by
              omega
            rw [if_pos hi, if_pos hi2]
            have hidx : i - tn = front.length + (i - (tn + front.length)) := by omega
            have hr : i - (tn + front.length) < rest.flatten.length := by omega
            rw [List.getD_eq_getElem _ _ hr,
              List.getD_eq_getElem _ _ (by rw [List.length_append]; omega)]
            simp only [hidx]
            rw [List.getElem_append_right (by omega)]
            simp
          · rw [if_neg hi]
            by_cases hi3 : tn ≤ i ∧ i < tn + front.length
            · have hi2 : tn ≤ i ∧ i < min ln (tn + (front.length + rest.flatten.length)) := by
                omega
              rw [if_pos hi3, if_pos hi2]
              have hlt2 : i - tn < front.length := by omega
              rw [List.getD_eq_getElem _ _ hlt2,
                List.getD_eq_getElem _ _ (by rw [List.length_append]; omega),
                List.getElem_append_left hlt2]
            · have hi2 : ¬ (tn ≤ i ∧ i < min ln (tn + (front.length + rest.flatten.length))) := by
                omega
              rw [if_neg hi3, if_neg hi2]
        · intro hne
          exact h5 (fun ch hch => hne ch (List.mem_cons_of_mem _ hch))
    · rw [if_neg hlt]
      have hEq : ln = tn := by omega
      subst hEq
      have hmin : min ln (ln + (front.length + rest.flatten.length)) = ln := by omega
      rw [hmin]
      refine ⟨rfl, ?_, ?_, rfl, ?_⟩
      · show (front :: rest).flatten = _
        rw [hflat]; simp
      · intro i
        have : ¬ (ln ≤ i ∧ i < ln) := by omega
        rw [if_neg this]
      · intro hne ch hch
        exact hne ch hch

end FsBioInterface

namespace FsBioInterface

/-- A buffer that agrees with the list `S` on its first `n` positions delivers
the first `n` elements of `S`. -/
theorem delivered_eq_take (data : Nat → Byte) (S : List Byte) (n : Nat) (hn : n ≤ S.length)
    (h : ∀ i, i < n → data i = S.getD i 0) : delivered data n = S.take n := by
  unfold delivered
  apply List.ext_getElem
  · simp [List.length_take, hn]
  · intro i h1 h2
    have hi : i < n := by simpa using h1
    have hiS : i < S.length := by omega
    simp only [List.getElem_map, List.getElem_range, List.getElem_take]
    rw [h i hi, List.getD_eq_getElem _ _ hiS]

/-- What `readdata` does for a length `ln ≥ 0`, with `S` the concatenation of
the blocks of `in_buffer` and `n = min ln |S|`. -/
theorem readdata_spec (st : State) (data : Nat → Byte) (ln : Nat) :
    (readdata st data ln).2.2 = ((min ln st.in_buffer.flatten.length : Nat) : Int)
    ∧ (readdata st data ln).1.in_buffer.flatten
        = st.in_buffer.flatten.drop (min ln st.in_buffer.flatten.length)
    ∧ delivered (readdata st data ln).2.1 (min ln st.in_buffer.flatten.length)
        = st.in_buffer.flatten.take (min ln st.in_buffer.flatten.length)
    ∧ (∀ i, min ln st.in_buffer.flatten.length ≤ i → (readdata st data ln).2.1 i = data i)
    ∧ (readdata st data ln).1.mTotalInBufferBytes
        = st.mTotalInBufferBytes - ((min ln st.in_buffer.flatten.length : Nat) : Int)
    ∧ ((∀ ch ∈ st.in_buffer, ch ≠ []) → ∀ ch ∈ (readdata st data ln).1.in_buffer, ch ≠ [])
    ∧ (readdata st data ln).1.out_buffer = st.out_buffer
    ∧ (readdata st data ln).1.mTotalOutBufferBytes = st.mTotalOutBufferBytes := by
  obtain ⟨h1, h2, h3, h4, h5⟩ :=
    readdataLoop_spec ln st.in_buffer 0 data st.mTotalInBufferBytes (Nat.zero_le _)
  simp only [Nat.zero_add, Nat.sub_zero, Nat.cast_zero] at h1 h2 h3 h4 h5
  unfold readdata
  dsimp only
  refine ⟨h1, h2, ?_, ?_, h4, h5, rfl, rfl⟩
  · apply delivered_eq_take _ _ _ (Nat.min_le_right _ _)
    intro i hi
    rw [h3 i, if_pos ⟨Nat.zero_le _, hi⟩]
  · intro i hi
    rw [h3 i, if_neg (by omega)]

/-- C19: for every content of `in_buffer`, with `S` the concatenation of its
blocks in arrival order, and every `len ≥ 0`: `readdata(data, len)` returns
`n = min(len, |S|)`, copies exactly the first `n` bytes of `S` to the first
`n` positions of `data` (leaving the rest of `data` as it was), and leaves
`in_buffer` holding exactly the remaining bytes of `S` in order, in non-empty
blocks if the blocks were non-empty; hence a read of `len` bytes followed by a
read of `len2` bytes delivers the same bytes, and leaves the same bytes
buffered, as one read of `len + len2` bytes. -/
theorem C19_readdata_prefix (st : State) (data data2 data3 : Nat → Byte) (len len2 : Int)
    (hlen : 0 ≤ len) (hlen2 : 0 ≤ len2) :
    (readdata st data len).2.2 = min len (st.in_buffer.flatten.length : Int)
    ∧ delivered (readdata st data len).2.1 (readdata st data len).2.2.toNat
        = st.in_buffer.flatten.take (readdata st data len).2.2.toNat
    ∧ (∀ i, (readdata st data len).2.2.toNat ≤ i → (readdata st data len).2.1 i = data i)
    ∧ (readdata st data len).1.in_buffer.flatten
        = st.in_buffer.flatten.drop (readdata st data len).2.2.toNat
    ∧ ((∀ ch ∈ st.in_buffer, ch ≠ []) → ∀ ch ∈ (readdata st data len).1.in_buffer, ch ≠ [])
    ∧ delivered (readdata st data len).2.1 (readdata st data len).2.2.toNat
        ++ delivered (readdata (readdata st data len).1 data2 len2).2.1
            (readdata (readdata st data len).1 data2 len2).2.2.toNat
        = delivered (readdata st data3 (len + len2)).2.1
            (readdata st data3 (len + len2)).2.2.toNat
    ∧ (readdata (readdata st data len).1 data2 len2).1.in_buffer.flatten
        = (readdata st data3 (len + len2)).1.in_buffer.flatten := by
  obtain ⟨a, rfl⟩ := Int.eq_ofNat_of_zero_le hlen
  obtain ⟨b, rfl⟩ := Int.eq_ofNat_of_zero_le hlen2
  obtain ⟨r1, r2, r3, r4, _, r6, _, _⟩ := readdata_spec st data a
  obtain ⟨s1, s2, s3, _, _, _, _, _⟩ := readdata_spec (readdata st data a).1 data2 b
  have hsum : ((a : Int) + (b : Int)) = ((a + b : Nat) : Int) := by push_cast; rfl
  rw [hsum]
  obtain ⟨t1, t2, t3, _, _, _, _, _⟩ := readdata_spec st data3 (a + b)
  rw [r1, s1, t1]
  simp only [Int.toNat_ofNat]
  rw [r3, s3, t3, s2, t2, r2]
  refine ⟨by omega, rfl, r4, rfl, r6, ?_, ?_⟩
  · rw [List.length_drop]
    have hmin : min (a + b) st.in_buffer.flatten.length
        = min a st.in_buffer.flatten.length
          + min b (st.in_buffer.flatten.length - min a st.in_buffer.flatten.length) := by
      omega
    rw [hmin, List.take_add]
  · rw [List.length_drop, List.drop_drop]
    congr 1
    omega

/-- C19 in a concrete run: the blocks `[1, 2, 3]` and `[4, 5]`, a read of 2
bytes and then a read of 2 bytes. -/
theorem C19_readdata_prefix_witness :
    (readdata (read_pending (read_pending (init 3) (some [1, 2, 3])).1 (some [4, 5])).1
        (fun _ => 0) 2).2.2 = min 2 (5 : Int)
    ∧ (readdata (read_pending (read_pending (init 3) (some [1, 2, 3])).1 (some [4, 5])).1
        (fun _ => 0) 2).1.in_buffer = [[3], [4, 5]] := by
  have h := C19_readdata_prefix
    (read_pending (read_pending (init 3) (some [1, 2, 3])).1 (some [4, 5])).1
    (fun _ => 0) (fun _ => 0) (fun _ => 0) 2 2 (by decide) (by decide)
  exact ⟨h.1, by decide⟩

end FsBioInterface

namespace FsBioInterface

theorem inBufferSize_eq_flatten_length (st : State) :
    inBufferSize st = (st.in_buffer.flatten.length : Int) := by
  unfold inBufferSize
  rw [List.length_flatten]

/-- Every operation that does not run `close` keeps the two counters equal to
the sizes of their buffers: `read_pending` on an error or on received bytes,
`readdata` with `len ≥ 0`, `senddata`, `write_pending` when the socket accepts
at most the front block, and `setSocket` on an inactive interface. -/
theorem countersMatch_preserved (st : State) (h : CountersMatch st) :
    CountersMatch (read_pending st none).1
    ∧ (∀ bytes, bytes ≠ [] → CountersMatch (read_pending st (some bytes)).1)
    ∧ (∀ (data : Nat → Byte) (len : Int), 0 ≤ len → CountersMatch (readdata st data len).1)
    ∧ (∀ data, CountersMatch (senddata st data).1)
    ∧ (∀ written : Int, (∀ p ∈ st.out_buffer.head?, written ≤ (p.length : Int)) →
        CountersMatch (write_pending st written).1)
    ∧ (st.mIsActive = false → ∀ s, CountersMatch (setSocket st s)) := by
  obtain ⟨hin, hout⟩ := h
  unfold inBufferSize at hin
  unfold outBufferSize at hout
  refine ⟨⟨by simpa [read_pending, inBufferSize] using hin,
      by simpa [read_pending, outBufferSize] using hout⟩, ?_, ?_, ?_, ?_, ?_⟩
  · intro bytes hne
    have hlen : (bytes.length : Int) ≠ 0 := by
      intro h0
      exact hne (List.length_eq_zero.mp (by exact_mod_cast h0))
    unfold read_pending
    simp only [hlen, if_false]
    constructor
    · simp only [inBufferSize, List.map_append, List.sum_append, List.map_cons, List.map_nil,
        List.sum_cons, List.sum_nil, Nat.add_zero]
      rw [hin]; push_cast; ring
    · simpa [outBufferSize] using hout
  · intro data len hlen
    obtain ⟨a, rfl⟩ := Int.eq_ofNat_of_zero_le hlen
    obtain ⟨_, r2, _, _, r5, _, r7, r8⟩ := readdata_spec st data a
    constructor
    · rw [inBufferSize_eq_flatten_length, r2, r5, hin, List.length_drop,
        ← List.length_flatten]
      have := Nat.min_le_right a st.in_buffer.flatten.length
      omega
    · unfold outBufferSize
      rw [r7, r8, hout]
  · intro data
    unfold senddata
    dsimp only
    by_cases hz : (data.length : Int) = 0
    · rw [if_pos hz]
      exact ⟨by simpa [inBufferSize] using hin, by simpa [outBufferSize] using hout⟩
    · rw [if_neg hz]
      constructor
      · simpa [inBufferSize] using hin
      · simp only [outBufferSize, List.map_append, List.sum_append, List.map_cons,
          List.map_nil, List.sum_cons, List.sum_nil, Nat.add_zero]
        rw [hout]; push_cast; ring
  · intro written hw
    unfold write_pending
    cases hb : st.out_buffer with
    | nil =>
      dsimp only
      exact ⟨by simpa [inBufferSize] using hin, by simpa [outBufferSize, hb] using hout⟩
    | cons p rest =>
      dsimp only
      have hwp : written ≤ (p.length : Int) := hw p (by simp [hb])
      rw [hb] at hout
      simp only [List.map_cons, List.sum_cons] at hout
      by_cases hneg : written < 0
      · rw [if_pos hneg]
        exact ⟨by simpa [inBufferSize] using hin, by simp [outBufferSize, hb, hout]⟩
      · rw [if_neg hneg]
        by_cases hzero : written = 0
        · rw [if_pos hzero]
          exact ⟨by simpa [inBufferSize] using hin, by simp [outBufferSize, hb, hout]⟩
        · rw [if_neg hzero]
          constructor
          · simpa [inBufferSize] using hin
          · obtain ⟨k, rfl⟩ := Int.eq_ofNat_of_zero_le (by omega : 0 ≤ written)
            by_cases hlt : (k : Int) < (p.length : Int)
            · simp only [outBufferSize, if_pos hlt, Int.toNat_ofNat, List.map_cons,
                List.sum_cons, List.length_drop]
              rw [hout]; push_cast; omega
            · simp only [outBufferSize, if_neg hlt]
              rw [hout]; push_cast; omega
  · intro hinactive s
    unfold setSocket
    simp only [hinactive, Bool.false_eq_true, if_false]
    exact ⟨by simpa [inBufferSize] using hin, by simpa [outBufferSize] using hout⟩

/-- C20 fails on the code: after `read_pending` has buffered five bytes, a
`close()` (called directly, or by `read_pending` at the end of the stream, or
by `setSocket` on the active interface) empties `in_buffer` but leaves
`mTotalInBufferBytes` at 5, so `moretoread()` is true with no byte buffered;
likewise `mTotalOutBufferBytes` stays at 2 after two queued bytes are
dropped. -/
theorem C20_close_leaves_stale_counters :
    CountersMatch (run (init 3) [Op.read_pending (some [1, 2, 3, 4, 5])])
    ∧ (run (init 3) [Op.read_pending (some [1, 2, 3, 4, 5]), Op.close]).in_buffer = []
    ∧ inBufferSize (run (init 3) [Op.read_pending (some [1, 2, 3, 4, 5]), Op.close]) = 0
    ∧ (run (init 3) [Op.read_pending (some [1, 2, 3, 4, 5]), Op.close]).mTotalInBufferBytes = 5
    ∧ moretoread (run (init 3) [Op.read_pending (some [1, 2, 3, 4, 5]), Op.close]) = true
    ∧ ¬ CountersMatch (run (init 3) [Op.read_pending (some [1, 2, 3, 4, 5]), Op.close])
    ∧ ¬ CountersMatch (run (init 3)
        [Op.read_pending (some [1, 2, 3, 4, 5]), Op.read_pending (some [])])
    ∧ ¬ CountersMatch (run (init 3) [Op.read_pending (some [1, 2, 3, 4, 5]), Op.setSocket 4])
    ∧ (run (init 3) [Op.senddata [1, 2], Op.close]).out_buffer = []
    ∧ (run (init 3) [Op.senddata [1, 2], Op.close]).mTotalOutBufferBytes = 2 := by
  decide

end FsBioInterface

/-! ## The outgoing stream of `socketbio.cc` -/

namespace FsBioInterface

/-- After `senddata` the queued bytes are the old ones followed by the payload
(nothing is queued for an empty payload). -/
theorem senddata_out_buffer_flatten (st : State) (data : List Byte) :
    (senddata st data).1.out_buffer.flatten = st.out_buffer.flatten ++ data := by
  unfold senddata
  dsimp only
  by_cases hz : (data.length : Int) = 0
  · rw [if_pos hz]
    have hnil : data = [] := List.length_eq_zero.mp (by exact_mod_cast hz)
    rw [hnil, List.append_nil]
  · rw [if_neg hz]
    simp

/-- In one `write_pending` call that takes at most the front block, the bytes
taken by the socket followed by the bytes still queued are the bytes queued
before. -/
theorem write_pending_out_buffer_flatten (st : State) (written : Int)
    (h : ∀ p ∈ st.out_buffer.head?, written ≤ (p.length : Int)) :
    acceptedBytes st written ++ (write_pending st written).1.out_buffer.flatten
      = st.out_buffer.flatten := by
  unfold acceptedBytes write_pending
  cases hb : st.out_buffer with
  | nil => simp [hb]
  | cons p rest =>
    have hwp : written ≤ (p.length : Int) := h p (by simp [hb])
    dsimp only
    by_cases hneg : written < 0
    · rw [if_pos hneg, if_pos hneg]
      simp [hb]
    · rw [if_neg hneg, if_neg hneg]
      by_cases hzero : written = 0
      · rw [if_pos hzero, if_pos hzero]
        simp [hb]
      · rw [if_neg hzero, if_neg hzero]
        obtain ⟨k, rfl⟩ := Int.eq_ofNat_of_zero_le (by omega : 0 ≤ written)
        simp only [Int.toNat_ofNat]
        by_cases hlt : (k : Int) < (p.length : Int)
        · rw [if_pos hlt]
          rw [List.flatten_cons, List.flatten_cons, ← List.append_assoc, List.take_append_drop]
        · rw [if_neg hlt]
          have hk : k = p.length := by omega
          rw [hk, List.take_length, List.flatten_cons]

/-- A `write_pending` call in which `write` returns a value `≤ 0` changes
nothing and hands nothing to the socket. -/
theorem write_pending_of_nonpos (st : State) (written : Int) (h : written ≤ 0) :
    (write_pending st written).1 = st ∧ acceptedBytes st written = [] := by
  unfold write_pending acceptedBytes
  cases st.out_buffer with
  | nil => exact ⟨rfl, rfl⟩
  | cons p rest =>
    dsimp only
    by_cases hneg : written < 0
    · rw [if_pos hneg, if_pos hneg]; exact ⟨rfl, rfl⟩
    · have hzero : written = 0 := by omega
      rw [if_neg hneg, if_pos hzero, if_neg hneg, if_pos hzero]; exact ⟨rfl, rfl⟩

/-- The bytes taken by the socket during an admissible sequence, followed by
the bytes queued at its end, are the bytes queued at its start followed by the
payloads. -/
theorem acceptedStream_append_out_buffer (ops : List Op) :
    ∀ st : State, outgoingAdmissible st ops = true →
      acceptedStream st ops ++ (run st ops).out_buffer.flatten
        = st.out_buffer.flatten ++ payloads ops := by
  induction ops with
  | nil =>
    intro st _
    simp [acceptedStream, run, payloads]
  | cons op rest ih =>
    intro st hadm
    unfold outgoingAdmissible at hadm
    rw [Bool.and_eq_true] at hadm
    obtain ⟨hop, hrest⟩ := hadm
    have hrun : run st (op :: rest) = run (step st op) rest := rfl
    unfold acceptedStream payloads
    rw [hrun, List.append_assoc, ih (step st op) hrest]
    cases op with
    | senddata data =>
      show [] ++ ((senddata st data).1.out_buffer.flatten ++ payloads rest) = _
      rw [senddata_out_buffer_flatten, List.nil_append, List.append_assoc]
    | write_pending written =>
      show acceptedBytes st written
          ++ ((write_pending st written).1.out_buffer.flatten ++ payloads rest) = _
      have hfront : ∀ p ∈ st.out_buffer.head?, written ≤ (p.length : Int) := by
        intro p hp
        cases hb : st.out_buffer with
        | nil => rw [hb] at hp; simp at hp
        | cons q tail =>
          rw [hb] at hp hop
          simp only [List.head?_cons, Option.mem_def, Option.some.injEq] at hp
          subst hp
          simpa using hop
      rw [← List.append_assoc, write_pending_out_buffer_flatten st written hfront]
      simp
    | read_pending recv => simp at hop
    | readdata len => simp at hop
    | setSocket s => simp at hop
    | close => simp at hop

/-- C21: for every sequence of `senddata` calls interleaved with
`write_pending` calls in which the socket accepts at most the front block (and
no `close`), the bytes accepted by the socket so far, followed by the
concatenation of the blocks left in `out_buffer`, are the bytes queued at the
start followed by all `senddata` payloads in call order, so exactly the
payloads when the sequence starts, as after construction, with an empty
`out_buffer`; a `write_pending` in which `write` returns `w ≤ 0` changes
nothing, and `senddata` with `len = 0` queues nothing and returns 0. -/
theorem C21_outgoing_stream_in_order (st : State) (ops : List Op)
    (hadm : outgoingAdmissible st ops = true) :
    acceptedStream st ops ++ (run st ops).out_buffer.flatten
        = st.out_buffer.flatten ++ payloads ops
    ∧ (st.out_buffer = [] →
        acceptedStream st ops ++ (run st ops).out_buffer.flatten = payloads ops)
    ∧ (∀ (later : State) (w : Int), w ≤ 0 →
        (write_pending later w).1 = later ∧ acceptedBytes later w = []
        ∧ (write_pending later w).2 = later.mTotalOutBufferBytes)
    ∧ (∀ later : State, senddata later [] = (later, 0)) := by
  have hmain := acceptedStream_append_out_buffer ops st hadm
  refine ⟨hmain, ?_, ?_, ?_⟩
  · intro hempty
    rw [hmain, hempty]
    rfl
  · intro later w hw
    obtain ⟨h1, h2⟩ := write_pending_of_nonpos later w hw
    refine ⟨h1, h2, ?_⟩
    unfold write_pending
    cases later.out_buffer with
    | nil => rfl
    | cons p rest =>
      dsimp only
      by_cases hneg : w < 0
      · rw [if_pos hneg]
      · have hzero : w = 0 := by omega
        rw [if_neg hneg, if_pos hzero]
  · intro later
    rfl

/-- C21 in a concrete run from construction: two payloads, the first taken in
two pieces with a refused write in between. -/
theorem C21_outgoing_stream_in_order_witness :
    acceptedStream (init 3)
        [Op.senddata [1, 2, 3], Op.write_pending 2, Op.senddata [4, 5],
         Op.write_pending (-1), Op.write_pending 1]
      = [1, 2, 3]
    ∧ (run (init 3)
        [Op.senddata [1, 2, 3], Op.write_pending 2, Op.senddata [4, 5],
         Op.write_pending (-1), Op.write_pending 1]).out_buffer = [[4, 5]]
    ∧ acceptedStream (init 3)
        [Op.senddata [1, 2, 3], Op.write_pending 2, Op.senddata [4, 5],
         Op.write_pending (-1), Op.write_pending 1]
        ++ (run (init 3)
          [Op.senddata [1, 2, 3], Op.write_pending 2, Op.senddata [4, 5],
           Op.write_pending (-1), Op.write_pending 1]).out_buffer.flatten
      = payloads
          [Op.senddata [1, 2, 3], Op.write_pending 2, Op.senddata [4, 5],
           Op.write_pending (-1), Op.write_pending 1] :=
  ⟨by decide, by decide,
   (C21_outgoing_stream_in_order (init 3)
      [Op.senddata [1, 2, 3], Op.write_pending 2, Op.senddata [4, 5],
       Op.write_pending (-1), Op.write_pending 1] (by decide)).2.1 rfl⟩

end FsBioInterface

/-! ## The delay as the program computes it -/

namespace FriendServerManager

/-- In exact arithmetic the exponential of line 100 is the one inside
`delay_for_request`. -/
theorem expValueWith_exact (f W : Nat) :
    expValueWith exactArithmetic f W
      = Real.exp (-1 * smoothing f W
          + Real.log ((MAX_DELAY_BETWEEN_FS_REQUESTS : Int) : ℝ) * (1.0 - smoothing f W)) :=
  rfl

theorem exactArithmetic_isAccurate : exactArithmetic.IsAccurate := by
  intro f W _
  rw [sub_self, abs_zero]
  positivity

/-- What accuracy gives: the computed exponential is within `10^-6` of the
exact one, on both sides. -/
theorem expValueWith_near (A : DoubleArithmetic) (hA : A.IsAccurate) (f W : Nat)
    (hW : W < 2 ^ 32) :
    expValueWith exactArithmetic f W - 1 / 10 ^ 6 ≤ expValueWith A f W
    ∧ expValueWith A f W ≤ expValueWith exactArithmetic f W + 1 / 10 ^ 6 := by
  have h := abs_le.mp (hA f W hW)
  constructor <;> linarith [h.1, h.2]

/-- An enclosure of the exact exponential that stays `10^-6` away from the
integers `k` and `k + 1` fixes the delay computed in any accurate
arithmetic. -/
theorem delayWith_of_enclosure (A : DoubleArithmetic) (hA : A.IsAccurate) (f W : Nat)
    (hW : W < 2 ^ 32) (k : Int)
    (hlo : (k : ℝ) + 1 / 10 ^ 6 ≤ expValueWith exactArithmetic f W)
    (hhi : expValueWith exactArithmetic f W < (k : ℝ) + 1 - 1 / 10 ^ 6) :
    delayWith A f W = 30 + k := by
  obtain ⟨h1, h2⟩ := expValueWith_near A hA f W hW
  have hfl : ⌊expValueWith A f W⌋ = k := by
    rw [Int.floor_eq_iff]
    constructor <;> linarith
  unfold delayWith
  rw [hfl]
  rfl

/-- A rational enclosure of the exact exponential for `W = 10`, by tenth
powers and the decimal bounds on `e`. -/
theorem expValue_ten_enclosure (f : Nat) (hf : f < 10) (lo hi : ℝ) (hhi0 : 0 ≤ hi)
    (h1 : lo ^ 10 * (2.7182818286 : ℝ) ^ (10 - f) ≤ 3600 ^ f)
    (h2 : (3600 : ℝ) ^ f < hi ^ 10 * (2.7182818283 : ℝ) ^ (10 - f)) :
    lo ≤ expValueWith exactArithmetic f 10 ∧ expValueWith exactArithmetic f 10 < hi := by
  rw [expValueWith_exact]
  have hp := exp_arg_pow_ten f hf
  set a := Real.exp (-1 * smoothing f 10
        + Real.log ((MAX_DELAY_BETWEEN_FS_REQUESTS : Int) : ℝ) * (1.0 - smoothing f 10)) with ha
  have hapos : 0 ≤ a := (Real.exp_pos _).le
  have hepos : (0 : ℝ) < Real.exp 1 ^ (10 - f) := pow_pos (Real.exp_pos _) _
  have hehi : Real.exp 1 ^ (10 - f) ≤ (2.7182818286 : ℝ) ^ (10 - f) :=
    pow_le_pow_left₀ (Real.exp_pos 1).le Real.exp_one_lt_d9.le _
  have helo : (2.7182818283 : ℝ) ^ (10 - f) ≤ Real.exp 1 ^ (10 - f) :=
    pow_le_pow_left₀ (by norm_num) Real.exp_one_gt_d9.le _
  constructor
  · have : lo ^ 10 ≤ a ^ 10 := by
      rw [hp, le_div_iff₀ hepos]
      exact le_trans (mul_le_mul_of_nonneg_left hehi (by positivity)) h1
    exact le_of_pow_le_pow_left₀ (by norm_num) hapos this
  · have : a ^ 10 < hi ^ 10 := by
      rw [hp, div_lt_iff₀ hepos]
      exact lt_of_lt_of_le h2 (mul_le_mul_of_nonneg_left helo (by positivity))
    exact lt_of_pow_lt_pow_left₀ 10 hhi0 this

/-- In every accurate arithmetic the delay for 5 friends of 10 is 66 s. -/
theorem delayWith_5_10 (A : DoubleArithmetic) (hA : A.IsAccurate) : delayWith A 5 10 = 66 := by
  obtain ⟨h1, h2⟩ := expValue_ten_enclosure 5 (by norm_num) 36.001 36.999 (by norm_num)
    (by norm_num) (by norm_num)
  have := delayWith_of_enclosure A hA 5 10 (by norm_num) 36
    (by push_cast; linarith) (by push_cast; linarith)
  simpa using this

end FriendServerManager

namespace FriendServerManager

/-- The control flow of one tick once the three guards are passed, whatever
delay lines 99-100 yield. -/
theorem threadTickWith_guarded (delay : Nat → Nat → Int) (env : Env) (st : State)
    (haddr : st.mServerAddress ≠ "") (hW : 0 < st.mFriendsToRequest)
    (hf : env.getPgpFriendList.length ≤ st.mFriendsToRequest) :
    threadTickWith delay env st =
      if st.mLastFriendReqestCampain
          + delay env.getPgpFriendList.length st.mFriendsToRequest < env.now
      then campaign env st else (st, { requests := [], added := [] }) := by
  unfold threadTickWith
  rw [if_neg haddr]
  have hg : ¬ (st.mFriendsToRequest = 0 ∨ st.mFriendsToRequest < env.getPgpFriendList.length) := by
    omega
  simp only [if_neg hg]

/-- After the guards, a request is performed exactly when
`lastCampaign + delay < now`, whatever delay lines 99-100 yield. -/
theorem threadTickWith_requests_iff (delay : Nat → Nat → Int) (env : Env) (st : State)
    (haddr : st.mServerAddress ≠ "") (hW : 0 < st.mFriendsToRequest)
    (hf : env.getPgpFriendList.length ≤ st.mFriendsToRequest) :
    (threadTickWith delay env st).2.requests ≠ [] ↔
      st.mLastFriendReqestCampain
        + delay env.getPgpFriendList.length st.mFriendsToRequest < env.now := by
  rw [threadTickWith_guarded delay env st haddr hW hf]
  split_ifs with hlt
  · simp [campaign, hlt]
  · simp [hlt]

/-- C2 (amended): for a tick that passes the guards (server address set,
`0 < W`, `f ≤ W`), and whatever value `delay(f, W)` lines 99-100 compute, the
request is performed if and only if `lastCampaign + delay(f, W) < now`,
strictly; when it is performed `lastCampaign` becomes `now`, otherwise it is
unchanged. With `f = 5`, `W = 10`, where the computed delay is 66 (as it is in
every accurate double arithmetic), the request is performed exactly by the
ticks later than `lastCampaign + 66`. -/
theorem C2_request_iff_strictly_after (delay : Nat → Nat → Int) (env : Env) (st : State)
    (haddr : st.mServerAddress ≠ "") (hW : 0 < st.mFriendsToRequest)
    (hf : env.getPgpFriendList.length ≤ st.mFriendsToRequest) :
    ((threadTickWith delay env st).2.requests ≠ [] ↔
        st.mLastFriendReqestCampain
          + delay env.getPgpFriendList.length st.mFriendsToRequest < env.now)
    ∧ ((threadTickWith delay env st).2.requests ≠ [] →
        (threadTickWith delay env st).1.mLastFriendReqestCampain = env.now)
    ∧ ((threadTickWith delay env st).2.requests = [] →
        (threadTickWith delay env st).1.mLastFriendReqestCampain
          = st.mLastFriendReqestCampain)
    ∧ (delay 5 10 = 66 → env.getPgpFriendList.length = 5 → st.mFriendsToRequest = 10 →
        ((threadTickWith delay env st).2.requests ≠ [] ↔
          st.mLastFriendReqestCampain + 66 < env.now))
    ∧ (∀ A : DoubleArithmetic, A.IsAccurate →
        env.getPgpFriendList.length = 5 → st.mFriendsToRequest = 10 →
        ((threadTickWith (delayWith A) env st).2.requests ≠ [] ↔
          st.mLastFriendReqestCampain + 66 < env.now)) := by
  have hg := threadTickWith_guarded delay env st haddr hW hf
  have key := threadTickWith_requests_iff delay env st haddr hW hf
  refine ⟨key, ?_, ?_, ?_, ?_⟩
  · intro h
    have hlt := key.mp h
    rw [hg, if_pos hlt]
    rfl
  · intro h
    have hn : ¬ (st.mLastFriendReqestCampain
          + delay env.getPgpFriendList.length st.mFriendsToRequest < env.now) := by
      intro hlt
      exact (key.mpr hlt) h
    rw [hg, if_neg hn]
  · intro h66 h5 h10
    rw [key, h5, h10, h66]
  · intro A hA h5 h10
    rw [threadTickWith_requests_iff (delayWith A) env st haddr hW hf, h5, h10,
      delayWith_5_10 A hA]

/-- The amended C2 at a concrete tick: 5 friends, 10 wanted, last campaign at
time 1000, clock at 1067, the delay evaluated in exact arithmetic. -/
theorem C2_request_iff_strictly_after_witness :
    (threadTickWith (delayWith exactArithmetic) (sampleEnv 5 1067)
        (sampleState 10 1000)).2.requests ≠ [] :=
  ((C2_request_iff_strictly_after (delayWith exactArithmetic) (sampleEnv 5 1067)
      (sampleState 10 1000) (by decide) (by decide) (by decide)).2.2.2.2
      exactArithmetic exactArithmetic_isAccurate (by decide) (by decide)).mpr (by decide)

end FriendServerManager

namespace FriendServerManager

end FriendServerManager

namespace FriendServerManager

end FriendServerManager

namespace FriendServerManager

end FriendServerManager
